import Mathlib

/-!
# Hotel booking chatbot: dialogue-state engine of `src/server.js`

A shallow embedding of the booking state, the five regular-expression
extractors, the stage rule, the system-prompt generator and the `/chat`
turn handler, followed by the properties proved about them.

Conventions of the embedding.
* A JavaScript string is a Lean `String`; the matchers work on its list of
  characters.  None of the five patterns carries the `u` flag, but for
  well-formed text matching by code point and by UTF-16 unit agree on them.
* `null` is `none`.  A JavaScript truthiness test `if (x)` is `truthyStr` /
  `truthyNum`: a string is truthy when it is non-null and non-empty, a number
  when it is non-null and non-zero.
* A number is a `JsNumber`: `parseInt` on a run of decimal digits gives the
  integer the run denotes rounded to the nearest double, or `Infinity`.
* A thrown exception is the `error` side of `Except`.
* The table follows what the ORM writes: `create` inserts the row, `save`
  updates the attributes that were assigned through the model's setter and
  does not see a change made in place inside a JSON attribute.
* A failed downstream call is an `Outcome`; `axiosError` and `openaiError`
  give the members `response` and `request` of the error each client throws.
-/

namespace HotelBot

/-! ## Character classes -/

/-- The ECMAScript LineTerminator code points: the characters `.` does not match. -/
def isLineTerminator (c : Char) : Bool :=
  c.toNat == 0x0A || c.toNat == 0x0D || c.toNat == 0x2028 || c.toNat == 0x2029

/-- The characters removed by `String.prototype.trim`: WhiteSpace (TAB, VT, FF,
SP, NBSP, ZWNBSP and the Unicode category Zs) and LineTerminator. -/
def isJsWhiteSpace (c : Char) : Bool :=
  c.toNat == 0x09 || c.toNat == 0x0B || c.toNat == 0x0C || c.toNat == 0x20 ||
  c.toNat == 0xA0 || c.toNat == 0xFEFF || c.toNat == 0x1680 ||
  (0x2000 ≤ c.toNat && c.toNat ≤ 0x200A) ||
  c.toNat == 0x202F || c.toNat == 0x205F || c.toNat == 0x3000 ||
  isLineTerminator c

/-- The class `\d` (without the `u` flag: ASCII digits only). -/
def isDigit (c : Char) : Bool := 48 ≤ c.toNat && c.toNat ≤ 57

/-- The class `[a-zA-Z]`. -/
def isLetter (c : Char) : Bool :=
  (97 ≤ c.toNat && c.toNat ≤ 122) || (65 ≤ c.toNat && c.toNat ≤ 90)

/-- The class `[a-zA-Z0-9._%+-]` of the local part of an address. -/
def isLocalChar (c : Char) : Bool :=
  isLetter c || isDigit c || c == '.' || c == '_' || c == '%' || c == '+' || c == '-'

/-- The class `[a-zA-Z0-9.-]` of the domain part of an address. -/
def isDomainChar (c : Char) : Bool :=
  isLetter c || isDigit c || c == '.' || c == '-'

/-! ## Matching primitives -/

/-- Match a literal at the head of the input; the result is the rest of the input. -/
def stripLit : List Char → List Char → Option (List Char)
  | [], s => some s
  | _ :: _, [] => none
  | p :: ps, c :: cs => if p = c then stripLit ps cs else none

/-- The search loop of `String.prototype.match` for a pattern without the `g`
flag: the match attempt is made at index 0, 1, 2, ... up to the end of the
input, and the first index where it succeeds wins. -/
def firstMatch {α : Type} (matchAt : List Char → Option α) : List Char → Option α
  | [] => matchAt []
  | c :: cs =>
    match matchAt (c :: cs) with
    | some r => some r
    | none => firstMatch matchAt cs

/-- The text `String.prototype.trim` returns. -/
def jsTrim (l : List Char) : List Char :=
  ((l.dropWhile isJsWhiteSpace).reverse.dropWhile isJsWhiteSpace).reverse

/-- The integer a run of decimal digits denotes. -/
def digitsValue (ds : List Char) : Nat :=
  ds.foldl (fun acc c => 10 * acc + (c.toNat - 48)) 0

/-- A JavaScript Number as `parseInt` yields it on a run of decimal digits: a
double whose value is a non-negative integer, or `Infinity`. -/
inductive JsNumber where
  | finite (n : Nat)
  | infinity
  deriving DecidableEq, Repr

instance (n : Nat) : OfNat JsNumber n := ⟨JsNumber.finite n⟩

/-- The exponent of the spacing of the doubles around `n`: the least `e`, counted
up from the given one, with `n / 2 ^ e < 2 ^ 53`; `fuel` bounds the count. -/
def ulpExponent : Nat → Nat → Nat → Nat
  | 0, e, _ => e
  | fuel + 1, e, n => if n / 2 ^ e < 2 ^ 53 then e else ulpExponent fuel (e + 1) n

/-- The significand of `n` at spacing `2 ^ e`, rounded to nearest, a tie going
to the even significand. -/
def roundedSignificand (n e : Nat) : Nat :=
  if 2 ^ e < 2 * (n % 2 ^ e) ∨ (2 * (n % 2 ^ e) = 2 ^ e ∧ (n / 2 ^ e) % 2 = 1) then
    n / 2 ^ e + 1
  else n / 2 ^ e

/-- The Number value of a non-negative integer: the integer itself below
`2 ^ 53`, otherwise the nearest double (53 significant bits, a tie goes to the
even significand), and `Infinity` when that rounding reaches `2 ^ 1024`, which
is a significand of `2 ^ 53` at exponent 971, or any exponent from 972 on. -/
def toNumber (n : Nat) : JsNumber :=
  if n < 2 ^ 53 then .finite n
  else if 972 ≤ ulpExponent n 0 n ∨
      (ulpExponent n 0 n = 971 ∧ roundedSignificand n (ulpExponent n 0 n) = 2 ^ 53) then
    .infinity
  else .finite (roundedSignificand n (ulpExponent n 0 n) * 2 ^ ulpExponent n 0 n)

/-- The result of `parseInt` on a text that begins with a decimal digit and in
which the leading digit run is not followed by `x`: the Number value of the
integer that run denotes, the whole run being converted. -/
def parseInt (s : List Char) : JsNumber := toNumber (digitsValue (s.takeWhile isDigit))

/-! ## The five extractors -/

/-- The exception raised by calling a method on `undefined` or `null`. -/
inductive TypeError where
  | undefinedReceiver
  deriving DecidableEq, Repr

/-- The match array of `/My name is (.*)|I am (.*)/`: capture groups 1 and 2,
a group that did not take part in the match being `undefined` (`none`). -/
structure NameMatch where
  group1 : Option (List Char)
  group2 : Option (List Char)
  deriving DecidableEq, Repr

/-- The greedy `(.*)`: everything up to the first line terminator. -/
def restOfLine (s : List Char) : List Char := s.takeWhile (fun c => !isLineTerminator c)

/-- One attempt of `/My name is (.*)|I am (.*)/` at the head of the input: the
left alternative is tried first. -/
def nameMatchAt (s : List Char) : Option NameMatch :=
  match stripLit "My name is ".data s with
  | some rest => some ⟨some (restOfLine rest), none⟩
  | none =>
    match stripLit "I am ".data s with
    | some rest => some ⟨none, some (restOfLine rest)⟩
    | none => none

/-- The function `extractFullName` of `server.js`: `fullNameMatch[1].trim()`
when the pattern matches, `null` otherwise. -/
def extractFullName (content : String) : Except TypeError (Option String) :=
  match firstMatch nameMatchAt content.data with
  | some fullNameMatch =>
    match fullNameMatch.group1 with
    | some g => .ok (some (String.mk (jsTrim g)))
    | none => .error .undefinedReceiver
  | none => .ok none

/-- The tail `\.[a-zA-Z]{2,}` at the head of the input: the matched text. -/
def tldAt : List Char → Option (List Char)
  | [] => none
  | c :: cs =>
    if c = '.' then
      if 2 ≤ (cs.takeWhile isLetter).length then some (c :: cs.takeWhile isLetter) else none
    else none

/-- The part `[a-zA-Z0-9.-]*\.[a-zA-Z]{2,}` at the head of the input, the star
being greedy: one more domain character is consumed first, and only when the
rest cannot be matched that way is the tail tried here. -/
def domainStarTld : List Char → Option (List Char)
  | [] => none
  | c :: cs =>
    match (if isDomainChar c then domainStarTld cs else none) with
    | some m => some (c :: m)
    | none => tldAt (c :: cs)

/-- The part `@[a-zA-Z0-9.-]+\.[a-zA-Z]{2,}` at the head of the input. -/
def atDomainAt : List Char → Option (List Char)
  | a :: c :: cs =>
    if a = '@' then
      if isDomainChar c then (domainStarTld cs).map (fun m => a :: c :: m) else none
    else none
  | _ => none

/-- One attempt of `/([a-zA-Z0-9._%+-]+@[a-zA-Z0-9.-]+\.[a-zA-Z]{2,})/` at the
head of the input.  `@` is not in the local class, so the greedy local part can
only be the whole run of local characters. -/
def emailMatchAt (s : List Char) : Option (List Char) :=
  if (s.takeWhile isLocalChar).isEmpty then none
  else (atDomainAt (s.dropWhile isLocalChar)).map (fun m => s.takeWhile isLocalChar ++ m)

/-- The function `extractEmail` of `server.js`. -/
def extractEmail (content : String) : Option String :=
  (firstMatch emailMatchAt content.data).map String.mk

/-- One position of a fixed-length pattern. -/
inductive Cls where
  | digit
  | lit (c : Char)
  deriving DecidableEq, Repr

/-- Whether a character fits a pattern position. -/
def Cls.accepts : Cls → Char → Bool
  | .digit, c => isDigit c
  | .lit a, c => a == c

/-- Match a fixed-length pattern at the head of the input: the matched text. -/
def matchSeq : List Cls → List Char → Option (List Char)
  | [], _ => some []
  | _ :: _, [] => none
  | p :: ps, c :: cs =>
    if p.accepts c then (matchSeq ps cs).map (fun m => c :: m) else none

/-- The pattern `\d{4}-\d{2}-\d{2}`. -/
def isoDatePattern : List Cls :=
  [.digit, .digit, .digit, .digit, .lit '-', .digit, .digit, .lit '-', .digit, .digit]

/-- The pattern `\d{2}\/\d{2}\/\d{4}`. -/
def slashDatePattern : List Cls :=
  [.digit, .digit, .lit '/', .digit, .digit, .lit '/', .digit, .digit, .digit, .digit]

/-- One attempt of `/\d{4}-\d{2}-\d{2}|\d{2}\/\d{2}\/\d{4}/` at the head of the input. -/
def dateMatchAt (s : List Char) : Option (List Char) :=
  match matchSeq isoDatePattern s with
  | some m => some m
  | none => matchSeq slashDatePattern s

/-- The function `extractDate` of `server.js`. -/
def extractDate (content : String) : Option String :=
  (firstMatch dateMatchAt content.data).map String.mk

/-- One attempt of `/\d+ night(s)?/` at the head of the input: the matched text
`nightsMatch[0]`.  The digit run is followed by a space, so the greedy `\d+`
can only be the whole run. -/
def nightsMatchAt (s : List Char) : Option (List Char) :=
  if (s.takeWhile isDigit).isEmpty then none
  else
    match stripLit " night".data (s.dropWhile isDigit) with
    | some rest =>
      match rest with
      | 's' :: _ => some (s.takeWhile isDigit ++ " nights".data)
      | _ => some (s.takeWhile isDigit ++ " night".data)
    | none => none

/-- The function `extractNights` of `server.js`. -/
def extractNights (content : String) : Option JsNumber :=
  (firstMatch nightsMatchAt content.data).map parseInt

/-- One attempt of `/room (\d+)/` at the head of the input: capture group 1. -/
def roomMatchAt (s : List Char) : Option (List Char) :=
  match stripLit "room ".data s with
  | some rest => if (rest.takeWhile isDigit).isEmpty then none else some (rest.takeWhile isDigit)
  | none => none

/-- The function `extractRoomId` of `server.js`. -/
def extractRoomId (content : String) : Option JsNumber :=
  (firstMatch roomMatchAt content.data).map parseInt

/-! ## Booking state -/

/-- The three values the code assigns to `bookingState.stage`. -/
inductive Stage where
  | initial
  | collecting_info
  | ready_to_book
  deriving DecidableEq, Repr

/-- The record `bookingState` of a conversation. -/
structure BookingState where
  stage : Stage
  fullName : Option String
  email : Option String
  checkInDate : Option String
  nights : Option JsNumber
  selectedRoomId : Option JsNumber
  deriving DecidableEq, Repr

/-- The literal assigned at creation and after a booking: stage `'initial'`,
every field `null`. -/
def zeroedState : BookingState :=
  { stage := .initial, fullName := none, email := none, checkInDate := none,
    nights := none, selectedRoomId := none }

/-- JavaScript truthiness of a value that is `null` or a string. -/
def truthyStr : Option String → Bool
  | some s => !s.data.isEmpty
  | none => false

/-- JavaScript truthiness of a value that is `null` or a number. -/
def truthyNum : Option JsNumber → Bool
  | some (.finite n) => n != 0
  | some .infinity => true
  | none => false

/-- The function `updateBookingState` of `server.js`.  The five guarded
assignments run in order; an exception leaves the function at once. -/
def updateBookingState (bookingState : BookingState) (content : String) :
    Except TypeError BookingState :=
  match (if !truthyStr bookingState.fullName then
          (extractFullName content).map (fun v => { bookingState with fullName := v })
         else .ok bookingState) with
  | .error e => .error e
  | .ok s1 =>
    let s2 := if !truthyStr s1.email then { s1 with email := extractEmail content } else s1
    let s3 := if !truthyStr s2.checkInDate then { s2 with checkInDate := extractDate content } else s2
    let s4 := if !truthyNum s3.nights then { s3 with nights := extractNights content } else s3
    let s5 := if !truthyNum s4.selectedRoomId then
                { s4 with selectedRoomId := extractRoomId content } else s4
    .ok s5

/-- The function `updateBookingStage` of `server.js`. -/
def updateBookingStage (bookingState : BookingState) : BookingState :=
  if truthyStr bookingState.fullName && truthyStr bookingState.email &&
      truthyStr bookingState.checkInDate && truthyNum bookingState.nights then
    { bookingState with stage := .ready_to_book }
  else if truthyStr bookingState.fullName || truthyStr bookingState.email ||
      truthyStr bookingState.checkInDate || truthyNum bookingState.nights then
    { bookingState with stage := .collecting_info }
  else
    { bookingState with stage := .initial }

/-! ## The system prompt -/

/-- The hexadecimal digit of a number below 16, in lower case. -/
def hexDigit (n : Nat) : Char :=
  if n < 10 then Char.ofNat (48 + n) else Char.ofNat (87 + n)

/-- The escape `JSON.stringify` writes for one character of a string. -/
def jsonEscapeChar (c : Char) : List Char :=
  if c = '"' then ['\\', '"']
  else if c = '\\' then ['\\', '\\']
  else if c.toNat = 8 then ['\\', 'b']
  else if c.toNat = 9 then ['\\', 't']
  else if c.toNat = 10 then ['\\', 'n']
  else if c.toNat = 12 then ['\\', 'f']
  else if c.toNat = 13 then ['\\', 'r']
  else if c.toNat < 32 then ['\\', 'u', '0', '0', hexDigit (c.toNat / 16), hexDigit (c.toNat % 16)]
  else [c]

/-- The text `JSON.stringify` writes for a string. -/
def jsonQuote (s : String) : String :=
  String.mk ('"' :: (s.data.flatMap jsonEscapeChar ++ ['"']))

/-- The text `JSON.stringify` writes for a string or `null`. -/
def jsonOfStr : Option String → String
  | some s => jsonQuote s
  | none => "null"

/-- The text `JSON.stringify` writes for a number or `null`: decimal digits
(what the code writes for integers up to `2 ^ 53`), and `null` for `Infinity`. -/
def jsonOfNum : Option JsNumber → String
  | some (.finite n) => Nat.repr n
  | some .infinity => "null"
  | none => "null"

/-- The string value of a stage. -/
def Stage.text : Stage → String
  | .initial => "initial"
  | .collecting_info => "collecting_info"
  | .ready_to_book => "ready_to_book"

/-- The text of `JSON.stringify(bookingState)`: the keys in the order in which
the object literal lists them. -/
def stringifyState (b : BookingState) : String :=
  "\x7b\"stage\":" ++ jsonQuote b.stage.text ++
  ",\"fullName\":" ++ jsonOfStr b.fullName ++
  ",\"email\":" ++ jsonOfStr b.email ++
  ",\"checkInDate\":" ++ jsonOfStr b.checkInDate ++
  ",\"nights\":" ++ jsonOfNum b.nights ++
  ",\"selectedRoomId\":" ++ jsonOfNum b.selectedRoomId ++ "\x7d"

/-- The template literal that `generateSystemMessage` starts from. -/
def basePrompt (bookingState : BookingState) : String :=
  "You are a helpful hotel booking assistant. The current booking state is: " ++
  stringifyState bookingState ++ ".\n" ++
  "    Guide the user through the booking process in this order:\n" ++
  "    1. Ask for their name, email, and check-in/check-out dates.\n" ++
  "    2. Calculate the duration of stay.\n" ++
  "    3. Show available room options.\n" ++
  "    4. Confirm booking details.\n" ++
  "    5. Complete the booking.\n" ++
  "    \n" ++
  "    Do not repeat information unnecessarily. Make sure the conversation is dynamic and smooth."

/-- The text a template literal writes for a value that is a string or `null`. -/
def templateStr : Option String → String
  | some v => v
  | none => "null"

/-- The text a template literal writes for a value that is a number or `null`:
decimal digits (what the code writes for integers up to `2 ^ 53`). -/
def templateNum : Option JsNumber → String
  | some (.finite n) => Nat.repr n
  | some .infinity => "Infinity"
  | none => "null"

/-- The clause appended for a known name. -/
def nameClause (b : BookingState) : String :=
  " The user's name is " ++ templateStr b.fullName ++ "."

/-- The clause appended for a known email. -/
def emailClause (b : BookingState) : String :=
  " The user's email is " ++ templateStr b.email ++ "."

/-- The clause appended for a known check-in date. -/
def dateClause (b : BookingState) : String :=
  " The check-in date is " ++ templateStr b.checkInDate ++ "."

/-- The clause appended for a known number of nights. -/
def nightsClause (b : BookingState) : String :=
  " The duration of stay is " ++ templateNum b.nights ++ " nights."

/-- The function `generateSystemMessage` of `server.js`. -/
def generateSystemMessage (bookingState : BookingState) : String :=
  let m0 := basePrompt bookingState
  let m1 := if truthyStr bookingState.fullName then m0 ++ nameClause bookingState else m0
  let m2 := if truthyStr bookingState.email then m1 ++ emailClause bookingState else m1
  let m3 := if truthyStr bookingState.checkInDate then m2 ++ dateClause bookingState else m2
  let m4 := if truthyNum bookingState.nights then m3 ++ nightsClause bookingState else m3
  m4

/-! ## The `/chat` turn -/

/-- The member `function_call` of a model reply. -/
structure FunctionCall where
  name : String
  arguments : String
  deriving DecidableEq, Repr

/-- One entry of the transcript: `role`, `content` and, on a raw model reply
that asks for a function, `function_call`. -/
structure Message where
  role : String
  content : Option String
  function_call : Option FunctionCall
  deriving DecidableEq, Repr

/-- One row of the table `Conversation`. -/
structure Conversation where
  userId : String
  messages : List Message
  bookingState : BookingState
  deriving DecidableEq, Repr

/-- The table `Conversation`, in row order. -/
abbrev Store := List Conversation

/-- What the `catch` block reads off a thrown value: `error.response` (status
and data) when it is set, and whether `error.request` is set. -/
structure Thrown (P : Type) where
  response : Option (Nat × P)
  request : Bool
  deriving DecidableEq, Repr

/-- A `TypeError` or `SyntaxError`: it carries neither `response` nor `request`. -/
def Thrown.plain {P : Type} : Thrown P := { response := none, request := false }

/-- What happened when a call to a downstream service failed: the service
answered with an error status and a payload, or the request was sent and no
response came, or the call broke without a request on the wire. -/
inductive Outcome (P : Type) where
  | answered (status : Nat) (data : P)
  | unreachable
  | broken
  deriving DecidableEq, Repr

/-- The error `axios` throws (`axios.get`, `axios.post`): it has `response`,
with status and data, when the service answered, and `request` when a request
was sent. -/
def axiosError {P : Type} : Outcome P → Thrown P
  | .answered status data => { response := some (status, data), request := true }
  | .unreachable => { response := none, request := true }
  | .broken => { response := none, request := false }

/-- The error the client of the completion provider throws
(`openai.chat.completions.create`): an `APIError` with members `status` and
`error`, or an `APIConnectionError`; neither has a member `response` or
`request`, whatever happened downstream. -/
def openaiError {P : Type} : Outcome P → Thrown P
  | .answered _ _ => { response := none, request := false }
  | .unreachable => { response := none, request := false }
  | .broken => { response := none, request := false }

/-- The behaviour, during one turn, of what the handler calls and does not
define: the table operations, the completion provider, the two REST services
and the JSON built-ins.  `P` is the type of JSON values. -/
structure Services (P : Type) where
  findOneError : Option (Thrown P)
  createError : Option (Thrown P)
  saveError : Option (Thrown P)
  complete : List Message → Except (Outcome P) Message
  jsonParse : String → Option P
  stringify : P → String
  getRooms : Except (Outcome P) P
  postBooking : P → Except (Outcome P) P

/-- What the handler sends back. -/
inductive HttpResponse (P : Type) where
  | reply (content : Option String)
  | errorData (status : Nat) (data : P)
  | errorText (status : Nat) (text : String)
  deriving DecidableEq, Repr

/-- The `catch` block of the handler. -/
def errorResponse {P : Type} (error : Thrown P) : HttpResponse P :=
  match error.response with
  | some (status, data) => .errorData status data
  | none =>
    if error.request then .errorText 503 "Service unavailable"
    else .errorText 500 "Internal server error"

/-- The query `Conversation.findOne({ where: { userId } })`. -/
def Store.findOne (store : Store) (userId : String) : Option Conversation :=
  store.find? (fun c => c.userId == userId)

/-- The write of `conversation.save()`: an UPDATE of the attributes that were
assigned through the model's setter since the row was read.  Of the two JSON
attributes the handler assigns `bookingState` only, and only in the `book_room`
branch; `assigned` is that value, `none` when nothing was assigned.  What the
handler changes in place, the pushes into `messages` and the members of
`bookingState`, is not seen by `save` and is not written. -/
def Store.save : Store → String → Option BookingState → Store
  | [], _, _ => []
  | c :: cs, userId, assigned =>
    if c.userId == userId then
      (match assigned with
       | some b => { c with bookingState := b }
       | none => c) :: cs
    else c :: Store.save cs userId assigned

/-- The value the branch on the reply assigns to `conversation.bookingState`
through the setter: the zeroed literal in the `book_room` branch, nothing in
the other branches. -/
def assignedBookingState (aiResponse : Message) : Option BookingState :=
  match aiResponse.function_call with
  | some functionCall =>
    if functionCall.name = "get_room_options" then none
    else if functionCall.name = "book_room" then some zeroedState
    else none
  | none => none

/-- The find-or-create step: the store after it and the record in memory. -/
def findOrCreate {P : Type} (w : Services P) (store : Store) (userId : String) :
    Except (Thrown P) (Store × Conversation) :=
  match w.findOneError with
  | some e => .error e
  | none =>
    match store.findOne userId with
    | some conversation => .ok (store, conversation)
    | none =>
      match w.createError with
      | some e => .error e
      | none =>
        .ok (store ++ [{ userId := userId, messages := [], bookingState := zeroedState }],
             { userId := userId, messages := [], bookingState := zeroedState })

/-- Whether no guard of `updateBookingState` would call an extractor. -/
def allFieldsTruthy (b : BookingState) : Bool :=
  truthyStr b.fullName && truthyStr b.email && truthyStr b.checkInDate &&
  truthyNum b.nights && truthyNum b.selectedRoomId

/-- The branch on the model's reply: the booking state and the reply record
that the handler goes on with. -/
def handleReply {P : Type} (w : Services P) (bookingState : BookingState) (aiResponse : Message) :
    Except (Thrown P) (BookingState × Message) :=
  match aiResponse.function_call with
  | some functionCall =>
    match w.jsonParse functionCall.arguments with
    | none => .error Thrown.plain
    | some functionArgs =>
      if functionCall.name = "get_room_options" then
        match w.getRooms with
        | .error e => .error (axiosError e)
        | .ok data =>
          .ok (bookingState,
               { role := "function", content := some (w.stringify data), function_call := none })
      else if functionCall.name = "book_room" then
        match w.postBooking functionArgs with
        | .error e => .error (axiosError e)
        | .ok data =>
          .ok (zeroedState,
               { role := "function", content := some (w.stringify data), function_call := none })
      else .ok (bookingState, aiResponse)
  | none =>
    match aiResponse.content with
    | some content =>
      match updateBookingState bookingState content with
      | .error _ => .error Thrown.plain
      | .ok s => .ok (updateBookingStage s, aiResponse)
    | none =>
      if allFieldsTruthy bookingState then .ok (updateBookingStage bookingState, aiResponse)
      else .error Thrown.plain

/-- The handler of `POST /chat` after input validation: the store after the
turn and the response. -/
def chat {P : Type} (w : Services P) (store : Store) (userId message : String) :
    Store × HttpResponse P :=
  match findOrCreate w store userId with
  | .error e => (store, errorResponse e)
  | .ok (store1, conversation) =>
    match w.complete
        ({ role := "system", content := some (generateSystemMessage conversation.bookingState),
           function_call := none } ::
          (conversation.messages ++ [{ role := "user", content := some message, function_call := none }])) with
    | .error e => (store1, errorResponse (openaiError e))
    | .ok aiResponse =>
      match handleReply w conversation.bookingState aiResponse with
      | .error e => (store1, errorResponse e)
      | .ok (_, aiResponse1) =>
        match w.saveError with
        | some e => (store1, errorResponse e)
        | none =>
          (store1.save conversation.userId (assignedBookingState aiResponse),
           .reply aiResponse1.content)

/-- The booking states that completed turns produce from the zeroed state. -/
inductive Reachable (P : Type) : BookingState → Prop
  | zeroed : Reachable P zeroedState
  | turn (w : Services P) (aiResponse reply : Message) (s s1 : BookingState) :
      Reachable P s → handleReply w s aiResponse = .ok (s1, reply) → Reachable P s1

/-- The booking states that completed turns produce from the zeroed state,
together with the model replies of those turns, the latest first. -/
inductive ReachableBy (P : Type) : List Message → BookingState → Prop
  | zeroed : ReachableBy P [] zeroedState
  | turn (w : Services P) (aiResponse reply : Message) (history : List Message)
      (s s1 : BookingState) :
      ReachableBy P history s → handleReply w s aiResponse = .ok (s1, reply) →
      ReachableBy P (aiResponse :: history) s1

/-! ## Vocabulary of the statements -/

/-- A string field is known when it is neither `null` nor the empty string. -/
def KnownStr (o : Option String) : Prop := ∃ v, o = some v ∧ v ≠ ""

/-- A number field is known when it is neither `null` nor zero. -/
def KnownNum (o : Option JsNumber) : Prop := ∃ n, o = some n ∧ n ≠ 0

/-- The state after a reply `"My name is "` with nothing behind it on the line:
the name is the empty string, not `null`. -/
def emptyNameState : BookingState := { zeroedState with fullName := some "" }

/-- The state after a reply `"0 nights"`: the night count is zero, not `null`. -/
def zeroNightsState : BookingState := { zeroedState with nights := some 0 }

/-- A provider and services that always answer: the model says
`"My name is Jane Doe"`, both REST services return their payload. -/
def sampleServices : Services String :=
  { findOneError := none, createError := none, saveError := none,
    complete := fun _ =>
      .ok { role := "assistant", content := some "My name is Jane Doe", function_call := none },
    jsonParse := fun a => some a,
    stringify := fun d => d,
    getRooms := .ok "[]",
    postBooking := fun a => .ok a }

/-- A provider that asks for `book_room`, with services that answer. -/
def bookingServices : Services String :=
  { sampleServices with
    complete := fun _ =>
      .ok { role := "assistant", content := none,
            function_call := some { name := "book_room", arguments := "args" } },
    postBooking := fun _ => .ok "confirmed" }

/-- A store with one conversation that is ready to book. -/
def readyStore : Store :=
  [{ userId := "u1", messages := [],
     bookingState := { stage := .ready_to_book, fullName := some "Jane Doe",
                       email := some "jane@example.com", checkInDate := some "2024-05-01",
                       nights := some 3, selectedRoomId := some 2 } }]

/-- The mention of a string field in the prompt, in the words of the
specification read with the code's presence test: the clause
`lead ++ value ++ "."` when the field is a non-empty string, nothing when it
is `null` or empty. -/
def strMention (lead : String) : Option String → String
  | some v => if v = "" then "" else lead ++ v ++ "."
  | none => ""

/-- The mention of the night count: the clause when the count is a non-zero
number, nothing when it is `null` or zero. -/
def nightsMention : Option JsNumber → String
  | some n =>
    if n = 0 then "" else " The duration of stay is " ++ templateNum (some n) ++ " nights."
  | none => ""

/-- Services whose completion provider cannot be reached. -/
def unreachableProvider : Services String :=
  { sampleServices with complete := fun _ => .error .unreachable }

/-- The shape `local@domain.tld` of the specification: a non-empty local part
over `[A-Za-z0-9._%+-]`, a non-empty domain part over `[A-Za-z0-9.-]` (labels
separated by `.`), a `.`, and a final label of at least two letters. -/
def EmailShape (e : List Char) : Prop :=
  ∃ loc dom tld : List Char, e = loc ++ '@' :: (dom ++ '.' :: tld) ∧
    loc ≠ [] ∧ (∀ c ∈ loc, isLocalChar c = true) ∧
    dom ≠ [] ∧ (∀ c ∈ dom, isDomainChar c = true) ∧
    2 ≤ tld.length ∧ (∀ c ∈ tld, isLetter c = true)

/-- The date shapes of the specification: four digits, `-`, two digits, `-`,
two digits; or two digits, `/`, two digits, `/`, four digits. -/
def DateShape (e : List Char) : Prop :=
  (∃ y m d : List Char, e = y ++ '-' :: (m ++ '-' :: d) ∧
    y.length = 4 ∧ m.length = 2 ∧ d.length = 2 ∧
    (∀ c ∈ y, isDigit c = true) ∧ (∀ c ∈ m, isDigit c = true) ∧ ∀ c ∈ d, isDigit c = true) ∨
  (∃ d m y : List Char, e = d ++ '/' :: (m ++ '/' :: y) ∧
    d.length = 2 ∧ m.length = 2 ∧ y.length = 4 ∧
    (∀ c ∈ d, isDigit c = true) ∧ (∀ c ∈ m, isDigit c = true) ∧ ∀ c ∈ y, isDigit c = true)

/-- An occurrence, in `text`, of a decimal integer followed by the word
`night`: the text before it, the digits, and the text behind `" night"`. -/
def NightsOccurrence (text p ds q : List Char) : Prop :=
  text = p ++ (ds ++ (" night".data ++ q)) ∧ ds ≠ [] ∧ ∀ c ∈ ds, isDigit c = true

/-- The position of a stage in the order initial, collecting_info, ready_to_book. -/
def Stage.rank : Stage → Nat
  | .initial => 0
  | .collecting_info => 1
  | .ready_to_book => 2

/-- A member of the parsed JSON body, as far as a truthiness test tells values
apart: a missing member, `null`, a boolean, a number (integers stand for the
JSON numbers), a string, or an array or object. -/
inductive JsValue where
  | undefined
  | null
  | bool (b : Bool)
  | number (n : Int)
  | string (s : String)
  | object
  deriving DecidableEq, Repr

/-- JavaScript truthiness of a body member. -/
def JsValue.truthy : JsValue → Bool
  | .undefined => false
  | .null => false
  | .bool b => b
  | .number n => n != 0
  | .string s => !s.data.isEmpty
  | .object => true

/-- The two members of `req.body` the route reads. -/
structure RequestBody where
  message : JsValue
  userId : JsValue
  deriving DecidableEq, Repr

/-- The middleware `validateChatInput` of `server.js`: `respond` is what `res`
sends, `next` is the rest of the route. -/
def validateChatInput {P R : Type} (body : RequestBody) (respond : HttpResponse P → R)
    (next : R) : R :=
  if !body.message.truthy || !body.userId.truthy then
    respond (.errorText 400 "Missing required fields")
  else next

/-- The route `app.post('/chat', validateChatInput, handler)`: the store after
the request and the response. -/
def postChat {P : Type} (handler : RequestBody → Store → Store × HttpResponse P)
    (store : Store) (body : RequestBody) : Store × HttpResponse P :=
  validateChatInput body (fun r => (store, r)) (handler body store)

/-- A body member is missing or empty in the words of the specification: the
member is absent or is the empty string. -/
def MissingOrEmpty (v : JsValue) : Prop := v = .undefined ∨ v = .string ""

/-- Services whose model answers with a given plain text. -/
def plainServices (text : String) : Services String :=
  { sampleServices with
    complete := fun _ => .ok { role := "assistant", content := some text, function_call := none } }

/-- A second turn of a user whose record holds two messages. -/
def talkingStore : Store :=
  [{ userId := "u1",
     messages := [{ role := "user", content := some "Hi", function_call := none },
                  { role := "assistant", content := some "Hello!", function_call := none }],
     bookingState := zeroedState }]

/-- Services whose booking endpoint refuses the booking with status 422. -/
def refusingServices : Services String :=
  { bookingServices with
    postBooking := fun _ => .error (.answered 422 "no such room") }

/-! ## Basic facts -/

theorem truthyStr_iff (o : Option String) : truthyStr o = true ↔ KnownStr o := by
  cases o with
  | none => simp [truthyStr, KnownStr]
  | some v =>
    obtain ⟨l⟩ := v
    cases l with
    | nil => simp [truthyStr, KnownStr, String.ext_iff]
    | cons c t =>
      simp only [truthyStr, List.isEmpty_cons, Bool.not_false, true_iff]
      exact ⟨_, rfl, fun h => by simp [String.ext_iff] at h⟩

theorem JsNumber.zero_eq : (0 : JsNumber) = JsNumber.finite 0 := rfl

theorem truthyNum_iff (o : Option JsNumber) : truthyNum o = true ↔ KnownNum o := by
  cases o with
  | none => simp [truthyNum, KnownNum]
  | some x =>
    cases x with
    | finite n => simp [truthyNum, KnownNum, JsNumber.zero_eq]
    | infinity => simp [truthyNum, KnownNum, JsNumber.zero_eq]

theorem updateBookingStage_idem (s : BookingState) :
    updateBookingStage (updateBookingStage s) = updateBookingStage s := by
  unfold updateBookingStage
  split_ifs <;> simp_all

theorem updateBookingStage_fields (s : BookingState) :
    (updateBookingStage s).fullName = s.fullName ∧ (updateBookingStage s).email = s.email ∧
    (updateBookingStage s).checkInDate = s.checkInDate ∧
    (updateBookingStage s).nights = s.nights ∧
    (updateBookingStage s).selectedRoomId = s.selectedRoomId := by
  unfold updateBookingStage
  split_ifs <;> simp

/-- The state `updateBookingState` returns, field by field, given the value the
name step leaves in `fullName`. -/
theorem updateBookingState_eq (s : BookingState) (c : String) (v : Option String)
    (hv : if truthyStr s.fullName = true then v = s.fullName else extractFullName c = .ok v) :
    updateBookingState s c = .ok
      { stage := s.stage,
        fullName := v,
        email := if truthyStr s.email = true then s.email else extractEmail c,
        checkInDate := if truthyStr s.checkInDate = true then s.checkInDate else extractDate c,
        nights := if truthyNum s.nights = true then s.nights else extractNights c,
        selectedRoomId :=
          if truthyNum s.selectedRoomId = true then s.selectedRoomId else extractRoomId c } := by
  unfold updateBookingState
  by_cases h1 : truthyStr s.fullName = true
  · rw [if_pos h1] at hv
    subst hv
    by_cases h2 : truthyStr s.email = true <;>
      by_cases h3 : truthyStr s.checkInDate = true <;> by_cases h4 : truthyNum s.nights = true <;>
      by_cases h5 : truthyNum s.selectedRoomId = true <;>
      simp [h1, h2, h3, h4, h5]
  · rw [if_neg h1] at hv
    by_cases h2 : truthyStr s.email = true <;>
      by_cases h3 : truthyStr s.checkInDate = true <;> by_cases h4 : truthyNum s.nights = true <;>
      by_cases h5 : truthyNum s.selectedRoomId = true <;>
      simp [h1, h2, h3, h4, h5, hv, Except.map]

/-- The name step is the only one that can throw. -/
theorem updateBookingState_error (s : BookingState) (c : String) (e : TypeError)
    (h1 : truthyStr s.fullName = false) (he : extractFullName c = .error e) :
    updateBookingState s c = .error e := by
  unfold updateBookingState
  simp [h1, he, Except.map]

/-- Every completed run of `updateBookingState` has the shape of
`updateBookingState_eq`. -/
theorem updateBookingState_ok_inv (s s1 : BookingState) (c : String)
    (h : updateBookingState s c = .ok s1) :
    ∃ v, (if truthyStr s.fullName = true then v = s.fullName else extractFullName c = .ok v) ∧
      s1 = { stage := s.stage,
             fullName := v,
             email := if truthyStr s.email = true then s.email else extractEmail c,
             checkInDate := if truthyStr s.checkInDate = true then s.checkInDate else extractDate c,
             nights := if truthyNum s.nights = true then s.nights else extractNights c,
             selectedRoomId :=
               if truthyNum s.selectedRoomId = true then s.selectedRoomId else extractRoomId c } := by
  by_cases h1 : truthyStr s.fullName = true
  · have hv : (if truthyStr s.fullName = true then s.fullName = s.fullName
        else extractFullName c = .ok s.fullName) := by simp [h1]
    have := updateBookingState_eq s c s.fullName hv
    rw [this] at h
    exact ⟨s.fullName, hv, by cases h; rfl⟩
  · cases hx : extractFullName c with
    | error e =>
      rw [updateBookingState_error s c e (by simpa using h1) hx] at h
      cases h
    | ok v =>
      have hv : (if truthyStr s.fullName = true then v = s.fullName
          else extractFullName c = .ok v) := by simp [h1, hx]
      have := updateBookingState_eq s c v hv
      rw [this] at h
      exact ⟨v, by simp [h1], by cases h; rfl⟩

/-! ## The stage rule -/

/-- C1, as stated, fails: with `fullName` the empty string (non-null) and the
other three fields `null`, at least one but not all four fields are non-null,
yet `updateBookingStage` sets the stage to `'initial'`, not `'collecting_info'`.
The state is the one `updateBookingState` produces from the reply
`"My name is "`. -/
theorem updateBookingStage_nonnull_counterexample :
    updateBookingState zeroedState "My name is " = .ok emptyNameState ∧
    emptyNameState.fullName ≠ none ∧ emptyNameState.email = none ∧
    (updateBookingStage emptyNameState).stage = Stage.initial ∧
    (updateBookingStage emptyNameState).stage ≠ Stage.collecting_info := by
  refine ⟨by rfl, by decide, by decide, by decide, by decide⟩

/-- C1 (amended): with "present" read as the code tests it (non-null and, for
a string, non-empty, for the night count, non-zero), `updateBookingStage` sets
the stage to `'ready_to_book'` when all four of `fullName`, `email`,
`checkInDate`, `nights` are present, to `'collecting_info'` when at least one
but not all are, and to `'initial'` when none is; the result does not depend on
the stage before, and no other field changes. -/
theorem updateBookingStage_stage (s : BookingState) :
    ((KnownStr s.fullName ∧ KnownStr s.email ∧ KnownStr s.checkInDate ∧ KnownNum s.nights) →
      (updateBookingStage s).stage = Stage.ready_to_book) ∧
    ((KnownStr s.fullName ∨ KnownStr s.email ∨ KnownStr s.checkInDate ∨ KnownNum s.nights) →
      ¬ (KnownStr s.fullName ∧ KnownStr s.email ∧ KnownStr s.checkInDate ∧ KnownNum s.nights) →
      (updateBookingStage s).stage = Stage.collecting_info) ∧
    ((¬ KnownStr s.fullName ∧ ¬ KnownStr s.email ∧ ¬ KnownStr s.checkInDate ∧
        ¬ KnownNum s.nights) →
      (updateBookingStage s).stage = Stage.initial) ∧
    (∀ st : Stage, updateBookingStage { s with stage := st } = updateBookingStage s) ∧
    (updateBookingStage s).fullName = s.fullName ∧ (updateBookingStage s).email = s.email ∧
    (updateBookingStage s).checkInDate = s.checkInDate ∧
    (updateBookingStage s).nights = s.nights ∧
    (updateBookingStage s).selectedRoomId = s.selectedRoomId := by
  simp only [← truthyStr_iff, ← truthyNum_iff]
  refine ⟨?_, ?_, ?_, ?_, updateBookingStage_fields s⟩
  · rintro ⟨h1, h2, h3, h4⟩
    simp [updateBookingStage, h1, h2, h3, h4]
  · intro h1 h2
    unfold updateBookingStage
    split_ifs <;> simp_all
  · rintro ⟨h1, h2, h3, h4⟩
    simp [updateBookingStage, h1, h2, h3, h4]
  · intro st
    unfold updateBookingStage
    split_ifs <;> rfl

/-- The stage rule at a state with a name and a night count only. -/
theorem updateBookingStage_stage_witness :
    (updateBookingStage
      { stage := .ready_to_book, fullName := some "Jane Doe", email := none,
        checkInDate := none, nights := some 3, selectedRoomId := some 7 }).stage
      = Stage.collecting_info :=
  (updateBookingStage_stage
      { stage := .ready_to_book, fullName := some "Jane Doe", email := none,
        checkInDate := none, nights := some 3, selectedRoomId := some 7 }).2.1
    (Or.inl ⟨"Jane Doe", rfl, by decide⟩)
    (fun h => by obtain ⟨_, ⟨v, hv, _⟩, _⟩ := h; cases hv)

/-! ## Reachable states -/

theorem handleReply_stage {P : Type} (w : Services P) (s s1 : BookingState)
    (aiResponse reply : Message) (h : handleReply w s aiResponse = .ok (s1, reply))
    (hs : updateBookingStage s = s) : updateBookingStage s1 = s1 := by
  unfold handleReply at h
  split at h
  · split at h
    · cases h
    · split_ifs at h
      · split at h
        · cases h
        · cases h; exact hs
      · split at h
        · cases h
        · cases h; rfl
      · cases h; exact hs
  · split at h
    · split at h
      · cases h
      · cases h; exact updateBookingStage_idem _
    · split_ifs at h
      cases h; exact updateBookingStage_idem _

/-- C2: in every booking state reached from the zeroed state by completed
turns (plain-text replies, `get_room_options` calls, `book_room` calls with
the reset, calls of any other function name), the stored stage is the one the
rule of `updateBookingStage` derives from the fields: running
`updateBookingStage` again changes nothing. -/
theorem reachable_stage_consistent (P : Type) (s : BookingState) (h : Reachable P s) :
    updateBookingStage s = s := by
  induction h with
  | zeroed => rfl
  | turn w aiResponse reply s s1 _ hstep ih => exact handleReply_stage w s s1 aiResponse reply hstep ih

/-- The invariant at the state reached by one plain-text reply
`"My name is Jane Doe"`. -/
theorem reachable_stage_consistent_witness :
    Reachable String
      { stage := .collecting_info, fullName := some "Jane Doe", email := none,
        checkInDate := none, nights := none, selectedRoomId := none } ∧
    updateBookingStage
      { stage := .collecting_info, fullName := some "Jane Doe", email := none,
        checkInDate := none, nights := none, selectedRoomId := none } =
      { stage := .collecting_info, fullName := some "Jane Doe", email := none,
        checkInDate := none, nights := none, selectedRoomId := none } :=
  have hr : Reachable String
      { stage := .collecting_info, fullName := some "Jane Doe", email := none,
        checkInDate := none, nights := none, selectedRoomId := none } :=
    Reachable.turn sampleServices
      { role := "assistant", content := some "My name is Jane Doe", function_call := none }
      { role := "assistant", content := some "My name is Jane Doe", function_call := none }
      zeroedState _ Reachable.zeroed (by rfl)
  ⟨hr, reachable_stage_consistent String _ hr⟩

/-! ## The extractors and exceptions -/

/-- C3: the claim does not hold of the code.  On a text whose leftmost match is
the `I am X` alternative, capture group 1 is `undefined` and
`fullNameMatch[1].trim()` throws a `TypeError`: so on `"I am Jane Doe"`, and on
every text that starts with `"I am "`. -/
theorem extractFullName_throws_on_I_am :
    extractFullName "I am Jane Doe" = .error TypeError.undefinedReceiver ∧
    ∀ rest : String, extractFullName ("I am " ++ rest) = .error TypeError.undefinedReceiver := by
  refine ⟨by rfl, fun rest => ?_⟩
  have hd : ("I am " ++ rest).data = 'I' :: ' ' :: 'a' :: 'm' :: ' ' :: rest.data := by
    rw [String.data_append]; rfl
  simp [extractFullName, hd, firstMatch, nameMatchAt, stripLit]

/-! ## Frozen fields -/

/-- C4, as stated, fails: a night count of zero is set (non-null) and is
overwritten by the next extraction, or cleared to `null` when the next reply
has no night count.  The state is the one the reply `"0 nights"` produces. -/
theorem updateBookingState_overwrites_zero_nights :
    updateBookingState zeroedState "0 nights" = .ok zeroNightsState ∧
    zeroNightsState.nights = some 0 ∧
    updateBookingState zeroNightsState "5 nights" = .ok { zeroedState with nights := some 5 } ∧
    updateBookingState zeroNightsState "hello" = .ok { zeroedState with nights := none } := by
  refine ⟨by rfl, by rfl, by rfl, by rfl⟩

/-- C4 (amended): on every state and text on which `updateBookingState`
completes, each of `fullName`, `email`, `checkInDate` that is set to a
non-empty string, and each of `nights`, `selectedRoomId` that is set to a
non-zero number, has the same value afterwards; the stage is not touched. -/
theorem updateBookingState_keeps_known (s s1 : BookingState) (c : String)
    (h : updateBookingState s c = .ok s1) :
    (KnownStr s.fullName → s1.fullName = s.fullName) ∧
    (KnownStr s.email → s1.email = s.email) ∧
    (KnownStr s.checkInDate → s1.checkInDate = s.checkInDate) ∧
    (KnownNum s.nights → s1.nights = s.nights) ∧
    (KnownNum s.selectedRoomId → s1.selectedRoomId = s.selectedRoomId) ∧
    s1.stage = s.stage := by
  simp only [← truthyStr_iff, ← truthyNum_iff]
  obtain ⟨v, hv, rfl⟩ := updateBookingState_ok_inv s s1 c h
  refine ⟨fun h1 => ?_, fun h2 => ?_, fun h3 => ?_, fun h4 => ?_, fun h5 => ?_, rfl⟩
  · simpa [h1] using hv
  · simp [h2]
  · simp [h3]
  · simp [h4]
  · simp [h5]

/-- A state with a name and a night count keeps both when the next reply
names another person and another duration. -/
theorem updateBookingState_keeps_known_witness :
    updateBookingState
        { stage := .collecting_info, fullName := some "Jane Doe", email := none,
          checkInDate := none, nights := some 2, selectedRoomId := none }
        "My name is Bob and I stay 5 nights in room 12" =
      .ok { stage := .collecting_info, fullName := some "Jane Doe", email := none,
            checkInDate := none, nights := some 2, selectedRoomId := some 12 } ∧
    (some "Jane Doe" : Option String) = some "Jane Doe" ∧ (some 2 : Option JsNumber) = some 2 :=
  have h : updateBookingState
        { stage := .collecting_info, fullName := some "Jane Doe", email := none,
          checkInDate := none, nights := some 2, selectedRoomId := none }
        "My name is Bob and I stay 5 nights in room 12" =
      .ok { stage := .collecting_info, fullName := some "Jane Doe", email := none,
            checkInDate := none, nights := some 2, selectedRoomId := some 12 } := by rfl
  ⟨h, (updateBookingState_keeps_known _ _ _ h).1 ⟨"Jane Doe", rfl, by decide⟩,
    (updateBookingState_keeps_known _ _ _ h).2.2.2.1 ⟨2, rfl, by decide⟩⟩

/-! ## The store -/

theorem Store.findOne_userId (store : Store) (userId : String) (c : Conversation)
    (h : store.findOne userId = some c) : c.userId = userId := by
  have := List.find?_some h
  simpa using this

theorem Store.findOne_save (store : Store) (userId : String) (c : Conversation)
    (assigned : Option BookingState) (h : store.findOne userId = some c) :
    (store.save userId assigned).findOne userId =
      some (match assigned with
            | some b => { c with bookingState := b }
            | none => c) := by
  induction store with
  | nil => simp [Store.findOne] at h
  | cons d ds ih =>
    unfold Store.findOne at h ih ⊢
    by_cases hd : d.userId = userId
    · have hb : (d.userId == userId) = true := by simpa using hd
      simp only [List.find?_cons, hb, Option.some.injEq] at h
      subst h
      cases assigned <;> simp [Store.save, hd]
    · have hb : (d.userId == userId) = false := by simpa using hd
      simp only [List.find?_cons, hb] at h
      simp only [Store.save, hb, Bool.false_eq_true, if_false, List.find?_cons]
      exact ih h

theorem Store.save_none (store : Store) (userId : String) :
    store.save userId none = store := by
  induction store with
  | nil => rfl
  | cons d ds ih =>
    by_cases hd : (d.userId == userId) = true
    · simp [Store.save, hd]
    · simp [Store.save, hd, ih]

theorem Store.findOne_append_fresh (store : Store) (userId : String) (conv : Conversation)
    (h : store.findOne userId = none) (hu : conv.userId = userId) :
    (store ++ [conv]).findOne userId = some conv := by
  unfold Store.findOne at h ⊢
  rw [List.find?_append, h]
  simp [hu]

/-- What a successful find-or-create step returns. -/
theorem findOrCreate_ok {P : Type} (w : Services P) (store store1 : Store) (userId : String)
    (conversation : Conversation) (h : findOrCreate w store userId = .ok (store1, conversation)) :
    store1.findOne userId = some conversation ∧ conversation.userId = userId ∧
    ((store.findOne userId = some conversation ∧ store1 = store) ∨
     (store.findOne userId = none ∧
      conversation = { userId := userId, messages := [], bookingState := zeroedState } ∧
      store1 = store ++ [conversation])) := by
  unfold findOrCreate at h
  split at h
  · cases h
  · split at h
    · rename_i c hc
      cases h
      exact ⟨hc, Store.findOne_userId _ _ _ hc, Or.inl ⟨hc, rfl⟩⟩
    · rename_i hc
      split at h
      · cases h
      · cases h
        exact ⟨Store.findOne_append_fresh _ _ _ hc rfl, rfl, Or.inr ⟨hc, rfl, rfl⟩⟩

/-! ## The booking branch -/

/-- C5: when the model's reply is a function call named `book_room` whose
arguments parse, and the booking service returns a payload, the branch leaves
the booking state zeroed (stage `'initial'`, all five fields `null`) whatever
it was before, with a function-result record holding the serialised payload;
and when the save goes through, the stored record of the user has the zeroed
state and the reply sent to the caller is the serialised payload. -/
theorem chat_book_room_resets {P : Type} (w : Services P) (store store1 : Store)
    (userId message : String) (conversation : Conversation) (aiResponse : Message)
    (functionCall : FunctionCall) (functionArgs data : P)
    (hfind : findOrCreate w store userId = .ok (store1, conversation))
    (hcomplete : w.complete
        ({ role := "system", content := some (generateSystemMessage conversation.bookingState),
           function_call := none } ::
          (conversation.messages ++
            [{ role := "user", content := some message, function_call := none }])) = .ok aiResponse)
    (hcall : aiResponse.function_call = some functionCall)
    (hname : functionCall.name = "book_room")
    (hparse : w.jsonParse functionCall.arguments = some functionArgs)
    (hbook : w.postBooking functionArgs = .ok data) :
    handleReply w conversation.bookingState aiResponse =
      .ok ({ stage := .initial, fullName := none, email := none, checkInDate := none,
             nights := none, selectedRoomId := none },
           { role := "function", content := some (w.stringify data), function_call := none }) ∧
    (w.saveError = none →
      (chat w store userId message).2 = .reply (some (w.stringify data)) ∧
      ∃ c, (chat w store userId message).1.findOne userId = some c ∧
        c.bookingState = { stage := .initial, fullName := none, email := none,
                           checkInDate := none, nights := none, selectedRoomId := none }) := by
  have hreply : handleReply w conversation.bookingState aiResponse =
      .ok (zeroedState,
           { role := "function", content := some (w.stringify data), function_call := none }) := by
    unfold handleReply
    simp [hcall, hparse, hname, hbook]
  refine ⟨hreply, fun hsave => ?_⟩
  obtain ⟨hf1, hu, _⟩ := findOrCreate_ok w store store1 userId conversation hfind
  have hassigned : assignedBookingState aiResponse = some zeroedState := by
    unfold assignedBookingState
    simp [hcall, hname]
  unfold chat
  simp only [hfind, hcomplete, hreply, hsave, hassigned, hu]
  exact ⟨trivial, _, Store.findOne_save store1 userId conversation (some zeroedState) hf1, rfl⟩

/-- The booking turn of a user whose stored state is ready to book. -/
theorem chat_book_room_resets_witness :
    (chat bookingServices readyStore "u1" "book it").2 = .reply (some "confirmed") ∧
    ∃ c, (chat bookingServices readyStore "u1" "book it").1.findOne "u1" = some c ∧
      c.bookingState = { stage := .initial, fullName := none, email := none,
                         checkInDate := none, nights := none, selectedRoomId := none } :=
  (chat_book_room_resets bookingServices readyStore readyStore "u1" "book it"
    { userId := "u1", messages := [],
      bookingState := { stage := .ready_to_book, fullName := some "Jane Doe",
                        email := some "jane@example.com", checkInDate := some "2024-05-01",
                        nights := some 3, selectedRoomId := some 2 } }
    { role := "assistant", content := none,
      function_call := some { name := "book_room", arguments := "args" } }
    { name := "book_room", arguments := "args" } "args" "confirmed"
    (by rfl) (by rfl) (by rfl) (by rfl) (by rfl) (by rfl)).2 (by rfl)

/-! ## The clauses of the system prompt -/

theorem strMention_eq (lead : String) (o : Option String) :
    strMention lead o = if truthyStr o = true then lead ++ templateStr o ++ "." else "" := by
  cases o with
  | none => rfl
  | some v =>
    obtain ⟨l⟩ := v
    cases l with
    | nil => rfl
    | cons c t =>
      have : (String.mk (c :: t)) ≠ "" := fun h => by simp [String.ext_iff] at h
      simp [strMention, truthyStr, templateStr, this]

theorem nightsMention_eq (o : Option JsNumber) :
    nightsMention o =
      if truthyNum o = true then " The duration of stay is " ++ templateNum o ++ " nights."
      else "" := by
  cases o with
  | none => rfl
  | some x =>
    cases x with
    | finite n =>
      by_cases hn : n = 0
      · subst hn; rfl
      · simp [nightsMention, truthyNum, JsNumber.zero_eq, hn]
    | infinity => simp [nightsMention, truthyNum, JsNumber.zero_eq]

set_option maxRecDepth 100000 in
/-- C6, as stated, fails: with `fullName` the empty string (non-null) the
prompt carries no name clause; it is the base text alone, with the state
serialised inside it. -/
theorem generateSystemMessage_empty_name_counterexample :
    emptyNameState.fullName = some "" ∧
    generateSystemMessage emptyNameState = basePrompt emptyNameState ∧
    generateSystemMessage emptyNameState =
      "You are a helpful hotel booking assistant. The current booking state is: \x7b\"stage\":\"initial\",\"fullName\":\"\",\"email\":null,\"checkInDate\":null,\"nights\":null,\"selectedRoomId\":null\x7d.\n    Guide the user through the booking process in this order:\n    1. Ask for their name, email, and check-in/check-out dates.\n    2. Calculate the duration of stay.\n    3. Show available room options.\n    4. Confirm booking details.\n    5. Complete the booking.\n    \n    Do not repeat information unnecessarily. Make sure the conversation is dynamic and smooth." := by
  refine ⟨rfl, rfl, by rfl⟩

/-- C6 (amended): `generateSystemMessage` is a function of the booking state,
and its output is the base text followed, in this order, by one mention clause
for each of `fullName`, `email`, `checkInDate`, `nights` that is truthy
(non-null and non-empty, or non-zero), and by nothing for a field that is
`null`, empty or zero. -/
theorem generateSystemMessage_clauses (s : BookingState) :
    generateSystemMessage s =
      basePrompt s ++ strMention " The user's name is " s.fullName ++
        strMention " The user's email is " s.email ++
        strMention " The check-in date is " s.checkInDate ++ nightsMention s.nights := by
  simp only [strMention_eq, nightsMention_eq]
  unfold generateSystemMessage nameClause emailClause dateClause nightsClause
  by_cases h1 : truthyStr s.fullName = true <;> by_cases h2 : truthyStr s.email = true <;>
    by_cases h3 : truthyStr s.checkInDate = true <;> by_cases h4 : truthyNum s.nights = true <;>
    simp [h1, h2, h3, h4, String.append_assoc]

/-! ## Failed turns and the store -/

/-- C7, as stated, fails: for a user the store does not know, the record is
created before the completion call; when that call fails the turn answers 500
and the store keeps the new record. -/
theorem chat_failure_creates_record :
    chat unreachableProvider [] "u1" "hello" =
      ([{ userId := "u1", messages := [], bookingState := zeroedState }],
       .errorText 500 "Internal server error") ∧
    (chat unreachableProvider [] "u1" "hello").1 ≠ [] := by
  refine ⟨by rfl, by decide⟩

/-- C7 (amended): on every turn that ends in an error response, the store is
unchanged when the user is already known, and when the lookup or the creation
itself fails; for a user not yet known whose record was created, the store
after the turn is the store before it with one record added, holding an empty
transcript and the zeroed state.  No existing record is changed. -/
theorem chat_failure_store {P : Type} (w : Services P) (store : Store)
    (userId message : String)
    (hfail : ∀ content, (chat w store userId message).2 ≠ .reply content) :
    (store.findOne userId ≠ none → (chat w store userId message).1 = store) ∧
    (w.findOneError ≠ none ∨ w.createError ≠ none →
      store.findOne userId = none → (chat w store userId message).1 = store) ∧
    (w.findOneError = none → w.createError = none → store.findOne userId = none →
      (chat w store userId message).1 =
        store ++ [{ userId := userId, messages := [], bookingState := zeroedState }]) := by
  have key : ∀ store1 conversation, findOrCreate w store userId = .ok (store1, conversation) →
      (chat w store userId message).1 = store1 := by
    intro store1 conversation hfind
    unfold chat at hfail ⊢
    simp only [hfind] at hfail ⊢
    generalize w.complete _ = rc at hfail ⊢
    cases rc with
    | error e => rfl
    | ok aiResponse =>
      simp only at hfail ⊢
      generalize handleReply w _ _ = rr at hfail ⊢
      cases rr with
      | error e => rfl
      | ok r =>
        obtain ⟨bookingState1, aiResponse1⟩ := r
        simp only at hfail ⊢
        cases hs : w.saveError with
        | some e => rfl
        | none =>
          simp only [hs] at hfail
          exact absurd rfl (hfail _)
  have kerr : ∀ e, findOrCreate w store userId = .error e →
      (chat w store userId message).1 = store := by
    intro e he
    unfold chat
    simp only [he]
  refine ⟨fun hk => ?_, fun herr hn => ?_, fun h1 h2 hn => ?_⟩
  · cases hf : findOrCreate w store userId with
    | error e => exact kerr e hf
    | ok r =>
      obtain ⟨store1, conversation⟩ := r
      rw [key store1 conversation hf]
      rcases (findOrCreate_ok w store store1 userId conversation hf).2.2 with h | h
      · exact h.2
      · exact absurd h.1 hk
  · cases hf : findOrCreate w store userId with
    | error e => exact kerr e hf
    | ok r =>
      exfalso
      unfold findOrCreate at hf
      rcases herr with h | h
      · cases hw : w.findOneError with
        | none => exact h hw
        | some e => simp [hw] at hf
      · cases hw : w.createError with
        | none => exact h hw
        | some e =>
          cases hw1 : w.findOneError <;> simp [hw, hw1, hn] at hf
  · have hf : findOrCreate w store userId =
        .ok (store ++ [{ userId := userId, messages := [], bookingState := zeroedState }],
             { userId := userId, messages := [], bookingState := zeroedState }) := by
      unfold findOrCreate
      simp [h1, h2, hn]
    exact key _ _ hf

/-- The failed first turn of an unknown user, and the failed turn of a known
one. -/
theorem chat_failure_store_witness :
    (chat unreachableProvider [] "u1" "hello").1 =
      [] ++ [{ userId := "u1", messages := [], bookingState := zeroedState }] ∧
    (chat unreachableProvider readyStore "u1" "hello").1 = readyStore :=
  ⟨(chat_failure_store unreachableProvider [] "u1" "hello"
      (fun content h => by
        have h2 : HttpResponse.errorText 500 "Internal server error" =
            HttpResponse.reply content := h
        cases h2)).2.2 rfl rfl rfl,
   (chat_failure_store unreachableProvider readyStore "u1" "hello"
      (fun content h => by
        have h2 : HttpResponse.errorText 500 "Internal server error" =
            HttpResponse.reply content := h
        cases h2)).1 (by decide)⟩

/-! ## The search loop and literal matching -/

theorem firstMatch_of_head {α : Type} (f : List Char → Option α) (s : List Char) (r : α)
    (h : f s = some r) : firstMatch f s = some r := by
  cases s with
  | nil => simpa [firstMatch] using h
  | cons c cs => simp [firstMatch, h]

/-- When no attempt that starts inside `pre` succeeds, the search goes on
behind `pre`. -/
theorem firstMatch_skip {α : Type} (f : List Char → Option α) (pre s : List Char)
    (h : ∀ p q, pre = p ++ q → q ≠ [] → f (q ++ s) = none) :
    firstMatch f (pre ++ s) = firstMatch f s := by
  induction pre with
  | nil => rfl
  | cons c cs ih =>
    have h0 : f (c :: cs ++ s) = none := h [] (c :: cs) rfl (by simp)
    have h1 : ∀ p q, cs = p ++ q → q ≠ [] → f (q ++ s) = none :=
      fun p q hpq hq => h (c :: p) q (by simp [hpq]) hq
    simp only [List.cons_append] at h0 ⊢
    simp only [firstMatch, h0]
    exact ih h1

/-- A result of the search is the result of the attempt at some position. -/
theorem firstMatch_some {α : Type} (f : List Char → Option α) (s : List Char) (r : α)
    (h : firstMatch f s = some r) : ∃ p q, s = p ++ q ∧ f q = some r := by
  induction s with
  | nil => exact ⟨[], [], rfl, by simpa [firstMatch] using h⟩
  | cons c cs ih =>
    cases hf : f (c :: cs) with
    | some r1 =>
      simp only [firstMatch, hf, Option.some.injEq] at h
      exact ⟨[], c :: cs, rfl, by rw [hf, h]⟩
    | none =>
      simp only [firstMatch, hf] at h
      obtain ⟨p, q, hpq, hq⟩ := ih h
      exact ⟨c :: p, q, by simp [hpq], hq⟩

/-- The search succeeds as soon as the attempt succeeds at some position. -/
theorem firstMatch_isSome {α : Type} (f : List Char → Option α) (p q : List Char)
    (h : (f q).isSome = true) : (firstMatch f (p ++ q)).isSome = true := by
  induction p with
  | nil =>
    obtain ⟨r, hr⟩ := Option.isSome_iff_exists.mp h
    simp [firstMatch_of_head f q r hr]
  | cons c cs ih =>
    simp only [List.cons_append, firstMatch]
    cases hf : f (c :: (cs ++ q)) with
    | some r1 => rfl
    | none => exact ih

theorem stripLit_append (lit rest : List Char) : stripLit lit (lit ++ rest) = some rest := by
  induction lit with
  | nil => rfl
  | cons c cs ih => simp [stripLit, ih]

theorem stripLit_some (lit s rest : List Char) (h : stripLit lit s = some rest) :
    s = lit ++ rest := by
  induction lit generalizing s with
  | nil => simp only [stripLit, Option.some.injEq] at h; simp [h]
  | cons c cs ih =>
    cases s with
    | nil => simp [stripLit] at h
    | cons d ds =>
      simp only [stripLit] at h
      split_ifs at h with hcd
      subst hcd
      simp [ih ds h]

theorem stripLit_none_of_no_match (lit s : List Char) (h : ¬ lit <+: s) :
    stripLit lit s = none := by
  cases hs : stripLit lit s with
  | none => rfl
  | some rest => exact absurd ⟨rest, (stripLit_some lit s rest hs).symm⟩ h

/-! ## Trimming -/

theorem restOfLine_eq_self (l : List Char) (h : ∀ c ∈ l, isLineTerminator c = false) :
    restOfLine l = l := by
  unfold restOfLine
  rw [List.takeWhile_eq_self_iff]
  intro c hc
  simp [h c hc]

theorem dropWhile_eq_self_of_head (p : Char → Bool) (l : List Char)
    (h : ∀ c, l.head? = some c → p c = false) : l.dropWhile p = l := by
  cases l with
  | nil => rfl
  | cons c cs =>
    have := h c rfl
    simp [List.dropWhile, this]

theorem jsTrim_eq_self (l : List Char)
    (hlead : ∀ c, l.head? = some c → isJsWhiteSpace c = false)
    (htrail : ∀ c, l.getLast? = some c → isJsWhiteSpace c = false) : jsTrim l = l := by
  unfold jsTrim
  rw [dropWhile_eq_self_of_head _ l hlead,
    dropWhile_eq_self_of_head _ l.reverse (by simpa using htrail), List.reverse_reverse]

/-! ## The name extractor -/

/-- C8, as stated, fails: the result is not the captured span verbatim.  On
`"My name is Jane Doe "` group 1 captures `"Jane Doe "` with its trailing
blank, and `extractFullName` returns `"Jane Doe"`. -/
theorem extractFullName_trims_capture :
    firstMatch nameMatchAt "My name is Jane Doe ".data =
      some { group1 := some "Jane Doe ".data, group2 := none } ∧
    extractFullName "My name is Jane Doe " = .ok (some "Jane Doe") ∧
    ("Jane Doe" : String) ≠ "Jane Doe " := by
  refine ⟨by rfl, by rfl, by decide⟩

/-- The name extractor on a text whose leftmost match is a `"My name is "`. -/
theorem extractFullName_after_prefix (pre rest : String)
    (hpre : ∀ p q : List Char, pre.data = p ++ q → q ≠ [] →
      ¬ ("My name is ".data <+: q ++ ("My name is ".data ++ rest.data)) ∧
      ¬ ("I am ".data <+: q ++ ("My name is ".data ++ rest.data))) :
    extractFullName (pre ++ "My name is " ++ rest) =
      .ok (some (String.mk (jsTrim (rest.data.takeWhile (fun c => !isLineTerminator c))))) := by
  have hdata : (pre ++ "My name is " ++ rest).data =
      pre.data ++ ("My name is ".data ++ rest.data) := by
    simp [String.data_append, List.append_assoc]
  have hskip : firstMatch nameMatchAt (pre.data ++ ("My name is ".data ++ rest.data)) =
      firstMatch nameMatchAt ("My name is ".data ++ rest.data) := by
    apply firstMatch_skip
    intro p q hpq hq
    obtain ⟨h1, h2⟩ := hpre p q hpq hq
    unfold nameMatchAt
    rw [stripLit_none_of_no_match _ _ h1, stripLit_none_of_no_match _ _ h2]
  have hat : nameMatchAt ("My name is ".data ++ rest.data) =
      some { group1 := some (restOfLine rest.data), group2 := none } := by
    unfold nameMatchAt
    rw [stripLit_append]
  unfold extractFullName
  rw [hdata, hskip, firstMatch_of_head _ _ _ hat]
  rfl

/-- C8 (amended): for every text with an occurrence of `"My name is "` before
which neither `"My name is "` nor `"I am "` starts, `extractFullName` returns
what follows that occurrence up to the end of its line, with leading and
trailing white space removed. -/
theorem extractFullName_my_name_is (pre rest : String)
    (hpre : ∀ p q : List Char, pre.data = p ++ q → q ≠ [] →
      ¬ ("My name is ".data <+: q ++ ("My name is ".data ++ rest.data)) ∧
      ¬ ("I am ".data <+: q ++ ("My name is ".data ++ rest.data))) :
    extractFullName (pre ++ "My name is " ++ rest) =
      .ok (some (String.mk (jsTrim (rest.data.takeWhile (fun c => !isLineTerminator c))))) :=
  extractFullName_after_prefix pre rest hpre

/-- The name behind a greeting, on a line that goes on with blanks. -/
theorem extractFullName_my_name_is_witness :
    extractFullName ("Hello! " ++ "My name is " ++ " Jane Doe  \nI am glad") =
      .ok (some "Jane Doe") :=
  extractFullName_my_name_is "Hello! " " Jane Doe  \nI am glad" (by
    intro p q hpq hq
    have hq7 : q.length ≤ 7 := by
      have := congrArg List.length hpq
      simp at this
      have h7 : "Hello! ".data.length = 7 := rfl
      omega
    have hsuf : q <:+ "Hello! ".data := ⟨p, hpq.symm⟩
    have hmem : q ∈ "Hello! ".data.tails := (List.mem_tails _ _).mpr hsuf
    have hcases : q = "Hello! ".data ∨ q = "ello! ".data ∨ q = "llo! ".data ∨ q = "lo! ".data ∨
        q = "o! ".data ∨ q = "! ".data ∨ q = " ".data ∨ q = [] := by
      simpa [List.tails] using hmem
    rcases hcases with h | h | h | h | h | h | h | h
    all_goals first
      | exact absurd h hq
      | (subst h; exact ⟨by decide, by decide⟩))

/-! ## A first turn that gives the name -/

/-- C9: for every name `X` that is non-empty, has no line break (no line
terminator) and no leading or trailing white space, and for which the text
`"My name is X"` has no email, date, `N night` or `room N` match, running
`updateBookingState` with that text and then `updateBookingStage` on the zeroed
state completes and yields `fullName = X`, stage `'collecting_info'`, and
`email`, `checkInDate`, `nights`, `selectedRoomId` still `null`. -/
theorem name_turn_from_zeroed (X : String)
    (hne : X ≠ "")
    (hline : ∀ c ∈ X.data, isLineTerminator c = false)
    (hlead : ∀ c, X.data.head? = some c → isJsWhiteSpace c = false)
    (htrail : ∀ c, X.data.getLast? = some c → isJsWhiteSpace c = false)
    (hemail : extractEmail ("My name is " ++ X) = none)
    (hdate : extractDate ("My name is " ++ X) = none)
    (hnights : extractNights ("My name is " ++ X) = none)
    (hroom : extractRoomId ("My name is " ++ X) = none) :
    (updateBookingState zeroedState ("My name is " ++ X)).map updateBookingStage =
      .ok { stage := .collecting_info, fullName := some X, email := none,
            checkInDate := none, nights := none, selectedRoomId := none } := by
  have hname : extractFullName ("My name is " ++ X) = .ok (some X) := by
    have h := extractFullName_after_prefix "" X (by
      intro p q hpq hq
      have : q = [] := by
        have h0 : ("" : String).data = [] := rfl
        rw [h0] at hpq
        exact (List.append_eq_nil.mp hpq.symm).2
      exact absurd this hq)
    have hX : String.mk (jsTrim (X.data.takeWhile (fun c => !isLineTerminator c))) = X := by
      show String.mk (jsTrim (X.data.takeWhile (fun c => !isLineTerminator c))) = X
      have h1 : X.data.takeWhile (fun c => !isLineTerminator c) = X.data :=
        restOfLine_eq_self X.data hline
      rw [h1, jsTrim_eq_self X.data hlead htrail]
    have hpre : ("" : String) ++ "My name is " ++ X = "My name is " ++ X := by
      apply String.ext
      simp [String.data_append]
    rw [hpre] at h
    rw [h, hX]
  have hk : X.data ≠ [] := fun h => hne (String.ext h)
  rw [updateBookingState_eq zeroedState ("My name is " ++ X) (some X) (by
    simpa [zeroedState, truthyStr] using hname)]
  simp [Except.map, zeroedState, truthyStr, truthyNum, hemail, hdate, hnights, hroom,
    updateBookingStage, hk]

/-- The first scenario of the specification: the reply `"My name is Jane Doe"`. -/
theorem name_turn_from_zeroed_witness :
    (updateBookingState zeroedState ("My name is " ++ "Jane Doe")).map updateBookingStage =
      .ok { stage := .collecting_info, fullName := some "Jane Doe", email := none,
            checkInDate := none, nights := none, selectedRoomId := none } :=
  name_turn_from_zeroed "Jane Doe" (by decide) (by decide) (by decide) (by decide)
    (by rfl) (by rfl) (by rfl) (by rfl)

/-! ## The email extractor -/

theorem isLetter_isDomainChar (c : Char) (h : isLetter c = true) : isDomainChar c = true := by
  simp [isDomainChar, h]

theorem isLetter_ne_dot (c : Char) (h : isLetter c = true) : c ≠ '.' := by
  rintro rfl
  revert h
  decide

theorem not_isDomainChar_ne_dot (c : Char) (h : isDomainChar c = false) : c ≠ '.' := by
  rintro rfl
  revert h
  decide

theorem isJsWhiteSpace_not_letter (c : Char) (h : isJsWhiteSpace c = true) :
    isLetter c = false := by
  cases hl : isLetter c with
  | false => rfl
  | true =>
    exfalso
    simp only [isJsWhiteSpace, isLineTerminator, isLetter, Bool.or_eq_true, Bool.and_eq_true,
      beq_iff_eq, decide_eq_true_eq] at h hl
    omega

theorem isJsWhiteSpace_not_digit (c : Char) (h : isJsWhiteSpace c = true) :
    isDigit c = false := by
  cases hl : isDigit c with
  | false => rfl
  | true =>
    exfalso
    simp only [isJsWhiteSpace, isLineTerminator, isDigit, Bool.or_eq_true, Bool.and_eq_true,
      beq_iff_eq, decide_eq_true_eq] at h hl
    omega

theorem isJsWhiteSpace_not_local (c : Char) (h : isJsWhiteSpace c = true) :
    isLocalChar c = false := by
  cases hl : isLocalChar c with
  | false => rfl
  | true =>
    exfalso
    simp only [isLocalChar, Bool.or_eq_true, beq_iff_eq, isJsWhiteSpace_not_letter c h,
      isJsWhiteSpace_not_digit c h, Bool.false_eq_true, false_or] at hl
    rcases hl with (((rfl | rfl) | rfl) | rfl) | rfl <;> revert h <;> decide

theorem isJsWhiteSpace_not_domain (c : Char) (h : isJsWhiteSpace c = true) :
    isDomainChar c = false := by
  cases hl : isDomainChar c with
  | false => rfl
  | true =>
    exfalso
    simp only [isDomainChar, Bool.or_eq_true, beq_iff_eq, isJsWhiteSpace_not_letter c h,
      isJsWhiteSpace_not_digit c h, Bool.false_eq_true, false_or] at hl
    rcases hl with rfl | rfl <;> revert h <;> decide

theorem takeWhile_append_stop (p : Char → Bool) (l r : List Char)
    (hl : ∀ c ∈ l, p c = true) (hr : ∀ c, r.head? = some c → p c = false) :
    (l ++ r).takeWhile p = l ∧ (l ++ r).dropWhile p = r := by
  have h1 : r.takeWhile p = [] := by
    cases r with
    | nil => rfl
    | cons c cs => simp [List.takeWhile, hr c rfl]
  constructor
  · rw [List.takeWhile_append_of_pos hl, h1, List.append_nil]
  · rw [List.dropWhile_append_of_pos hl]
    exact dropWhile_eq_self_of_head p r hr

/-- The tail matcher returns a dot and at least two letters, a prefix of its input. -/
theorem tldAt_some (l m : List Char) (h : tldAt l = some m) :
    ∃ tld rest, m = '.' :: tld ∧ l = m ++ rest ∧ 2 ≤ tld.length ∧
      ∀ c ∈ tld, isLetter c = true := by
  cases l with
  | nil => simp [tldAt] at h
  | cons c cs =>
    simp only [tldAt] at h
    split_ifs at h with hc hlen
    cases h
    subst hc
    refine ⟨cs.takeWhile isLetter, cs.dropWhile isLetter, rfl, by simp, hlen, ?_⟩
    intro c hc
    exact List.mem_takeWhile_imp hc

/-- What the greedy domain matcher returns: domain characters, a dot and at
least two letters, a prefix of its input. -/
theorem domainStarTld_some (l m : List Char) (h : domainStarTld l = some m) :
    ∃ dom tld rest, m = dom ++ '.' :: tld ∧ l = m ++ rest ∧
      (∀ c ∈ dom, isDomainChar c = true) ∧ 2 ≤ tld.length ∧ ∀ c ∈ tld, isLetter c = true := by
  induction l generalizing m with
  | nil => simp [domainStarTld] at h
  | cons c cs ih =>
    simp only [domainStarTld] at h
    split at h
    · rename_i m1 hm1
      cases h
      split_ifs at hm1 with hc
      obtain ⟨dom, tld, rest, rfl, hl, hd, h2, ht⟩ := ih m1 hm1
      refine ⟨c :: dom, tld, rest, rfl, by simp [hl], ?_, h2, ht⟩
      intro d hd1
      rcases List.mem_cons.mp hd1 with rfl | hd1
      · exact hc
      · exact hd d hd1
    · obtain ⟨tld, rest, hm, hl, h2, ht⟩ := tldAt_some _ _ h
      exact ⟨[], tld, rest, by simpa using hm, hl, by simp, h2, ht⟩

theorem atDomainAt_some (d m : List Char) (h : atDomainAt d = some m) :
    ∃ c cs m2, d = '@' :: c :: cs ∧ isDomainChar c = true ∧ domainStarTld cs = some m2 ∧
      m = '@' :: c :: m2 := by
  cases d with
  | nil => simp [atDomainAt] at h
  | cons a t =>
    cases t with
    | nil => simp [atDomainAt] at h
    | cons c cs =>
      simp only [atDomainAt] at h
      split_ifs at h with ha hc
      subst ha
      obtain ⟨m2, hm2, rfl⟩ := Option.map_eq_some'.mp h
      exact ⟨c, cs, m2, rfl, hc, hm2, rfl⟩

/-- Every result of one attempt of the email pattern has the shape and is a
prefix of the input of the attempt. -/
theorem emailMatchAt_some (s m : List Char) (h : emailMatchAt s = some m) :
    EmailShape m ∧ m <+: s := by
  unfold emailMatchAt at h
  split_ifs at h with he
  obtain ⟨m1, hm1, rfl⟩ := Option.map_eq_some'.mp h
  have hsplit : s = s.takeWhile isLocalChar ++ s.dropWhile isLocalChar :=
    (List.takeWhile_append_dropWhile isLocalChar s).symm
  generalize s.dropWhile isLocalChar = d at hm1 hsplit
  obtain ⟨c, cs, m2, rfl, hc, hm2, rfl⟩ := atDomainAt_some d m1 hm1
  obtain ⟨dom, tld, rest, rfl, hl, hd, h2, ht⟩ := domainStarTld_some cs m2 hm2
  refine ⟨⟨s.takeWhile isLocalChar, c :: dom, tld, by simp, ?_, ?_, by simp, ?_, h2, ht⟩, ?_⟩
  · simpa using he
  · intro a ha
    exact List.mem_takeWhile_imp ha
  · intro a ha
    rcases List.mem_cons.mp ha with rfl | ha
    · exact hc
    · exact hd a ha
  · refine ⟨rest, ?_⟩
    conv_rhs => rw [hsplit, hl]
    simp

/-- The greedy domain matcher succeeds on domain characters followed by a dot
and two letters or more. -/
theorem domainStarTld_isSome (dom tld post : List Char)
    (hd : ∀ c ∈ dom, isDomainChar c = true) (h2 : 2 ≤ tld.length)
    (ht : ∀ c ∈ tld, isLetter c = true) :
    (domainStarTld (dom ++ '.' :: (tld ++ post))).isSome = true := by
  have htld : (tldAt ('.' :: (tld ++ post))).isSome = true := by
    have hlen : 2 ≤ ((tld ++ post).takeWhile isLetter).length := by
      rw [List.takeWhile_append_of_pos ht]
      simp only [List.length_append]
      omega
    simp [tldAt, hlen]
  induction dom with
  | nil =>
    simp only [List.nil_append, domainStarTld]
    split
    · rfl
    · exact htld
  | cons c cs ih =>
    have hc : isDomainChar c = true := hd c (List.mem_cons_self _ _)
    have hrec := ih (fun a ha => hd a (List.mem_cons_of_mem _ ha))
    obtain ⟨r, hr⟩ := Option.isSome_iff_exists.mp hrec
    simp [domainStarTld, hc, hr]

/-- One attempt of the email pattern succeeds at the start of any text of the shape. -/
theorem emailMatchAt_isSome (e post : List Char) (h : EmailShape e) :
    (emailMatchAt (e ++ post)).isSome = true := by
  obtain ⟨loc, dom, tld, rfl, hne, hloc, hdne, hdom, h2, ht⟩ := h
  have hstop := takeWhile_append_stop isLocalChar loc ('@' :: (dom ++ '.' :: tld) ++ post) hloc
    (by intro c hc; simp only [List.cons_append, List.head?_cons, Option.some.injEq] at hc
        subst hc; decide)
  have hassoc : loc ++ '@' :: (dom ++ '.' :: tld) ++ post =
      loc ++ ('@' :: (dom ++ '.' :: tld) ++ post) := by simp
  unfold emailMatchAt
  rw [hassoc, hstop.1, hstop.2]
  cases dom with
  | nil => exact absurd rfl hdne
  | cons d ds =>
    have hd : isDomainChar d = true := hdom d (List.mem_cons_self _ _)
    have hrec := domainStarTld_isSome ds tld post
      (fun a ha => hdom a (List.mem_cons_of_mem _ ha)) h2 ht
    obtain ⟨r, hr⟩ := Option.isSome_iff_exists.mp hrec
    have hne1 : loc.isEmpty = false := by
      cases loc with
      | nil => exact absurd rfl hne
      | cons _ _ => rfl
    simp [atDomainAt, hd, hr, hne1]

/-- Letters followed by something outside the domain class hold no match of
the greedy domain matcher. -/
theorem domainStarTld_letters_none (tld post : List Char)
    (ht : ∀ c ∈ tld, isLetter c = true)
    (hp : ∀ c, post.head? = some c → isDomainChar c = false) :
    domainStarTld (tld ++ post) = none := by
  induction tld with
  | nil =>
    cases post with
    | nil => rfl
    | cons c cs =>
      have hc := hp c rfl
      simp [domainStarTld, hc, tldAt, not_isDomainChar_ne_dot c hc]
  | cons t ts ih =>
    have ht1 : isLetter t = true := ht t (List.mem_cons_self _ _)
    have hrec := ih (fun a ha => ht a (List.mem_cons_of_mem _ ha))
    simp [domainStarTld, hrec, tldAt, isLetter_ne_dot t ht1]

/-- On an address that ends where the domain class ends, the greedy domain
matcher returns the whole domain and final label. -/
theorem domainStarTld_exact (dom tld post : List Char)
    (hd : ∀ c ∈ dom, isDomainChar c = true) (h2 : 2 ≤ tld.length)
    (ht : ∀ c ∈ tld, isLetter c = true)
    (hp : ∀ c, post.head? = some c → isDomainChar c = false) :
    domainStarTld (dom ++ '.' :: (tld ++ post)) = some (dom ++ '.' :: tld) := by
  have hpl : ∀ c, post.head? = some c → isLetter c = false := by
    intro c hc
    cases hl : isLetter c with
    | false => rfl
    | true =>
      have h1 := isLetter_isDomainChar c hl
      rw [hp c hc] at h1
      cases h1
  induction dom with
  | nil =>
    have hnone := domainStarTld_letters_none tld post ht hp
    have htw := (takeWhile_append_stop isLetter tld post ht hpl).1
    simp [domainStarTld, hnone, tldAt, htw, h2]
  | cons c cs ih =>
    have hc : isDomainChar c = true := hd c (List.mem_cons_self _ _)
    have hrec := ih (fun a ha => hd a (List.mem_cons_of_mem _ ha))
    simp [domainStarTld, hc, hrec]

/-- An attempt returns exactly an address that is followed by white space or
by the end of the text. -/
theorem emailMatchAt_exact (addr post : List Char) (h : EmailShape addr)
    (hp : ∀ c, post.head? = some c → isJsWhiteSpace c = true) :
    emailMatchAt (addr ++ post) = some addr := by
  obtain ⟨loc, dom, tld, rfl, hne, hloc, hdne, hdom, h2, ht⟩ := h
  have hstop := takeWhile_append_stop isLocalChar loc ('@' :: (dom ++ '.' :: tld) ++ post) hloc
    (by intro c hc; simp only [List.cons_append, List.head?_cons, Option.some.injEq] at hc
        subst hc; decide)
  have hassoc : loc ++ '@' :: (dom ++ '.' :: tld) ++ post =
      loc ++ ('@' :: (dom ++ '.' :: tld) ++ post) := by simp
  unfold emailMatchAt
  rw [hassoc, hstop.1, hstop.2]
  cases dom with
  | nil => exact absurd rfl hdne
  | cons d ds =>
    have hd : isDomainChar d = true := hdom d (List.mem_cons_self _ _)
    have hrec := domainStarTld_exact ds tld post
      (fun a ha => hdom a (List.mem_cons_of_mem _ ha)) h2 ht
      (fun c hc => isJsWhiteSpace_not_domain c (hp c hc))
    have hne1 : loc.isEmpty = false := by
      cases loc with
      | nil => exact absurd rfl hne
      | cons _ _ => rfl
    simp [atDomainAt, hd, hrec, hne1]

/-- A text with a character outside the local class and without `@` splits at
its first such character. -/
theorem split_at_non_local (q : List Char) (w : Char) (hw : w ∈ q)
    (hwl : isLocalChar w = false) (hat : '@' ∉ q) :
    ∃ t d ds, q = t ++ d :: ds ∧ (∀ c ∈ t, isLocalChar c = true) ∧
      isLocalChar d = false ∧ d ≠ '@' := by
  induction q with
  | nil => cases hw
  | cons c cs ih =>
    cases hc : isLocalChar c with
    | false =>
      refine ⟨[], c, cs, rfl, by simp, hc, ?_⟩
      rintro rfl
      exact hat (List.mem_cons_self _ _)
    | true =>
      have hw1 : w ∈ cs := by
        rcases List.mem_cons.mp hw with rfl | h
        · rw [hc] at hwl; cases hwl
        · exact h
      obtain ⟨t, d, ds, rfl, ht, hd, hda⟩ := ih hw1 (fun h => hat (List.mem_cons_of_mem _ h))
      refine ⟨c :: t, d, ds, rfl, ?_, hd, hda⟩
      intro a ha
      rcases List.mem_cons.mp ha with rfl | ha
      · exact hc
      · exact ht a ha

/-- No attempt succeeds when the run of local characters ends before any `@`. -/
theorem emailMatchAt_none_before_at (q r : List Char) (w : Char) (hw : w ∈ q)
    (hwl : isLocalChar w = false) (hat : '@' ∉ q) : emailMatchAt (q ++ r) = none := by
  obtain ⟨t, d, ds, rfl, ht, hd, hda⟩ := split_at_non_local q w hw hwl hat
  have hstop := takeWhile_append_stop isLocalChar t (d :: (ds ++ r)) ht
    (by intro c hc; simp only [List.head?_cons, Option.some.injEq] at hc; subst hc; exact hd)
  have hassoc : t ++ d :: ds ++ r = t ++ d :: (ds ++ r) := by simp
  unfold emailMatchAt
  rw [hassoc, hstop.1, hstop.2]
  have : atDomainAt (d :: (ds ++ r)) = none := by
    cases hx : ds ++ r with
    | nil => rfl
    | cons x xs => simp [atDomainAt, hda]
  simp [this]

/-- C10: `extractEmail` returns `null` when the text has no substring of the
shape `local@domain.tld`; otherwise it returns a substring of the text that
has that shape; and when the first `@` of the text lies in a well-formed
address delimited by white space or by the ends of the text, it returns that
full address. -/
theorem extractEmail_spec (content : String) :
    ((¬ ∃ e, e <:+: content.data ∧ EmailShape e) → extractEmail content = none) ∧
    ((∃ e, e <:+: content.data ∧ EmailShape e) →
      ∃ r, extractEmail content = some r ∧ r.data <:+: content.data ∧ EmailShape r.data) ∧
    (∀ pre addr post : List Char, content.data = pre ++ (addr ++ post) → '@' ∉ pre →
      EmailShape addr →
      (∀ c, pre.getLast? = some c → isJsWhiteSpace c = true) →
      (∀ c, post.head? = some c → isJsWhiteSpace c = true) →
      extractEmail content = some (String.mk addr)) := by
  have sound : ∀ m, firstMatch emailMatchAt content.data = some m →
      m <:+: content.data ∧ EmailShape m := by
    intro m hm
    obtain ⟨p, q, hpq, hq⟩ := firstMatch_some _ _ _ hm
    obtain ⟨hshape, rest, hrest⟩ := emailMatchAt_some q m hq
    exact ⟨⟨p, rest, by rw [hpq, ← hrest]; simp⟩, hshape⟩
  refine ⟨fun hno => ?_, fun hex => ?_, fun pre addr post hc hat hshape hpre hpost => ?_⟩
  · cases hm : firstMatch emailMatchAt content.data with
    | none => simp [extractEmail, hm]
    | some m => exact absurd ⟨m, sound m hm⟩ hno
  · obtain ⟨e, ⟨p, q, hpq⟩, hshape⟩ := hex
    have hsome : (firstMatch emailMatchAt content.data).isSome = true := by
      rw [← hpq, List.append_assoc]
      exact firstMatch_isSome _ p (e ++ q) (emailMatchAt_isSome e q hshape)
    obtain ⟨m, hm⟩ := Option.isSome_iff_exists.mp hsome
    exact ⟨String.mk m, by simp [extractEmail, hm], (sound m hm).1, (sound m hm).2⟩
  · have hskip : firstMatch emailMatchAt (pre ++ (addr ++ post)) =
        firstMatch emailMatchAt (addr ++ post) := by
      apply firstMatch_skip
      intro p q hpq hq
      obtain ⟨w, hw⟩ : ∃ w, q.getLast? = some w := by
        cases hl : q.getLast? with
        | none => exact absurd (List.getLast?_eq_none_iff.mp hl) hq
        | some w => exact ⟨w, rfl⟩
      have hwpre : pre.getLast? = some w := by
        rw [hpq, List.getLast?_append, hw]
        rfl
      have hwq : w ∈ q := List.mem_of_getLast?_eq_some hw
      have hatq : '@' ∉ q := fun h => hat (by rw [hpq]; exact List.mem_append_right _ h)
      exact emailMatchAt_none_before_at q (addr ++ post) w hwq
        (isJsWhiteSpace_not_local w (hpre w hwpre)) hatq
    unfold extractEmail
    rw [hc, hskip, firstMatch_of_head _ _ _ (emailMatchAt_exact addr post hshape hpost)]
    rfl

/-- The second scenario of the specification: a text containing
`jane@example.com` yields `jane@example.com`. -/
theorem extractEmail_spec_witness :
    extractEmail "You can reach me at jane@example.com any time" = some "jane@example.com" :=
  (extractEmail_spec "You can reach me at jane@example.com any time").2.2
    "You can reach me at ".data "jane@example.com".data " any time".data
    (by rfl) (by decide)
    ⟨"jane".data, "example".data, "com".data, by rfl, by decide, by decide, by decide,
      by decide, by decide, by decide⟩
    (by intro c hc; cases hc; decide) (by intro c hc; cases hc; decide)

/-! ## Fixed-length patterns and the date extractor -/

/-- A result of a fixed-length pattern is a prefix of the input that fits the
pattern position by position. -/
theorem matchSeq_some (ps : List Cls) (s m : List Char) (h : matchSeq ps s = some m) :
    m <+: s ∧ List.Forall₂ (fun p c => p.accepts c = true) ps m := by
  induction ps generalizing s m with
  | nil =>
    simp only [matchSeq, Option.some.injEq] at h
    subst h
    exact ⟨List.nil_prefix, List.Forall₂.nil⟩
  | cons p ps ih =>
    cases s with
    | nil => simp [matchSeq] at h
    | cons c cs =>
      simp only [matchSeq] at h
      split_ifs at h with hc
      obtain ⟨m1, hm1, rfl⟩ := Option.map_eq_some'.mp h
      obtain ⟨hpre, hall⟩ := ih cs m1 hm1
      exact ⟨(List.prefix_cons_inj c).mpr hpre, List.Forall₂.cons hc hall⟩

/-- A text that fits a fixed-length pattern is matched whole, whatever follows. -/
theorem matchSeq_complete (ps : List Cls) (m q : List Char)
    (h : List.Forall₂ (fun p c => p.accepts c = true) ps m) :
    matchSeq ps (m ++ q) = some m := by
  induction h with
  | nil => simp [matchSeq]
  | cons hc _ ih => simp [matchSeq, hc, ih]

theorem forall₂_iso_iff (m : List Char) :
    List.Forall₂ (fun p c => p.accepts c = true) isoDatePattern m ↔
      ∃ y mo d : List Char, m = y ++ '-' :: (mo ++ '-' :: d) ∧
        y.length = 4 ∧ mo.length = 2 ∧ d.length = 2 ∧
        (∀ c ∈ y, isDigit c = true) ∧ (∀ c ∈ mo, isDigit c = true) ∧
        ∀ c ∈ d, isDigit c = true := by
  constructor
  · intro h
    simp only [isoDatePattern, List.forall₂_cons_left_iff, List.forall₂_nil_left_iff,
      Cls.accepts, beq_iff_eq] at h
    obtain ⟨a1, _, h1, ⟨a2, _, h2, ⟨a3, _, h3, ⟨a4, _, h4, ⟨a5, _, h5, ⟨a6, _, h6,
      ⟨a7, _, h7, ⟨a8, _, h8, ⟨a9, _, h9, ⟨a10, _, h10, rfl, rfl⟩, rfl⟩, rfl⟩, rfl⟩, rfl⟩,
      rfl⟩, rfl⟩, rfl⟩, rfl⟩, rfl⟩ := h
    subst h5 h8
    exact ⟨[a1, a2, a3, a4], [a6, a7], [a9, a10], rfl, rfl, rfl, rfl,
      by simp [h1, h2, h3, h4], by simp [h6, h7], by simp [h9, h10]⟩
  · rintro ⟨y, mo, d, rfl, hy, hm, hd, hy1, hm1, hd1⟩
    rcases y with _ | ⟨a1, _ | ⟨a2, _ | ⟨a3, _ | ⟨a4, _ | _⟩⟩⟩⟩ <;> simp at hy
    rcases mo with _ | ⟨a6, _ | ⟨a7, _ | _⟩⟩ <;> simp at hm
    rcases d with _ | ⟨a9, _ | ⟨a10, _ | _⟩⟩ <;> simp at hd
    simp only [List.mem_cons, List.mem_singleton, forall_eq_or_imp, forall_eq,
      List.not_mem_nil, false_implies, implies_true, and_true] at hy1 hm1 hd1
    simp [isoDatePattern, Cls.accepts, hy1, hm1, hd1]

theorem forall₂_slash_iff (m : List Char) :
    List.Forall₂ (fun p c => p.accepts c = true) slashDatePattern m ↔
      ∃ d mo y : List Char, m = d ++ '/' :: (mo ++ '/' :: y) ∧
        d.length = 2 ∧ mo.length = 2 ∧ y.length = 4 ∧
        (∀ c ∈ d, isDigit c = true) ∧ (∀ c ∈ mo, isDigit c = true) ∧
        ∀ c ∈ y, isDigit c = true := by
  constructor
  · intro h
    simp only [slashDatePattern, List.forall₂_cons_left_iff, List.forall₂_nil_left_iff,
      Cls.accepts, beq_iff_eq] at h
    obtain ⟨a1, _, h1, ⟨a2, _, h2, ⟨a3, _, h3, ⟨a4, _, h4, ⟨a5, _, h5, ⟨a6, _, h6,
      ⟨a7, _, h7, ⟨a8, _, h8, ⟨a9, _, h9, ⟨a10, _, h10, rfl, rfl⟩, rfl⟩, rfl⟩, rfl⟩, rfl⟩,
      rfl⟩, rfl⟩, rfl⟩, rfl⟩, rfl⟩ := h
    subst h3 h6
    exact ⟨[a1, a2], [a4, a5], [a7, a8, a9, a10], rfl, rfl, rfl, rfl,
      by simp [h1, h2], by simp [h4, h5], by simp [h7, h8, h9, h10]⟩
  · rintro ⟨d, mo, y, rfl, hd, hm, hy, hd1, hm1, hy1⟩
    rcases y with _ | ⟨a1, _ | ⟨a2, _ | ⟨a3, _ | ⟨a4, _ | _⟩⟩⟩⟩ <;> simp at hy
    rcases mo with _ | ⟨a6, _ | ⟨a7, _ | _⟩⟩ <;> simp at hm
    rcases d with _ | ⟨a9, _ | ⟨a10, _ | _⟩⟩ <;> simp at hd
    simp only [List.mem_cons, List.mem_singleton, forall_eq_or_imp, forall_eq,
      List.not_mem_nil, false_implies, implies_true, and_true] at hy1 hm1 hd1
    simp [slashDatePattern, Cls.accepts, hy1, hm1, hd1]

/-- Every result of one attempt of the date pattern is a date-shaped prefix of
the input of the attempt. -/
theorem dateMatchAt_some (s m : List Char) (h : dateMatchAt s = some m) :
    DateShape m ∧ m <+: s := by
  unfold dateMatchAt at h
  split at h
  · rename_i m1 hm1
    cases h
    obtain ⟨hpre, hall⟩ := matchSeq_some _ _ _ hm1
    exact ⟨Or.inl ((forall₂_iso_iff m).mp hall), hpre⟩
  · obtain ⟨hpre, hall⟩ := matchSeq_some _ _ _ h
    exact ⟨Or.inr ((forall₂_slash_iff m).mp hall), hpre⟩

/-- One attempt of the date pattern returns the date-shaped text at the head
of its input. -/
theorem dateMatchAt_exact (e q : List Char) (h : DateShape e) :
    dateMatchAt (e ++ q) = some e := by
  unfold dateMatchAt
  rcases h with h | h
  · rw [matchSeq_complete _ e q ((forall₂_iso_iff e).mpr h)]
  · have h2 := matchSeq_complete _ e q ((forall₂_slash_iff e).mpr h)
    cases h1 : matchSeq isoDatePattern (e ++ q) with
    | none => simpa using h2
    | some m1 =>
      obtain ⟨⟨r1, hr1⟩, hall1⟩ := matchSeq_some _ _ _ h1
      have hl1 : m1.length = 10 := by
        have := hall1.length_eq
        simpa [isoDatePattern] using this.symm
      have hl2 : e.length = 10 := by
        have := ((forall₂_slash_iff e).mpr h).length_eq
        simpa [slashDatePattern] using this.symm
      have : m1 = e := by
        have hp : m1 ++ r1 = e ++ q := hr1
        exact List.append_inj_left hp (by rw [hl1, hl2])
      rw [this]

/-- The search returns the result of the attempt at a position before which no
attempt succeeds. -/
theorem firstMatch_leftmost {α : Type} (f : List Char → Option α) (p s : List Char) (r : α)
    (hs : f s = some r) (hp : ∀ p0 q, p = p0 ++ q → q ≠ [] → f (q ++ s) = none) :
    firstMatch f (p ++ s) = some r := by
  rw [firstMatch_skip f p s hp]
  exact firstMatch_of_head f s r hs

/-- C11: `extractDate` returns `null` when the text has no substring shaped as
four digits `-` two digits `-` two digits or as two digits `/` two digits `/`
four digits, and otherwise returns the leftmost such substring as it stands in
the text, with no calendar validation and no normalisation. -/
theorem extractDate_spec (content : String) :
    ((¬ ∃ e, e <:+: content.data ∧ DateShape e) → extractDate content = none) ∧
    (∀ p e q : List Char, content.data = p ++ (e ++ q) → DateShape e →
      (∀ p1 e1 q1 : List Char, content.data = p1 ++ (e1 ++ q1) → DateShape e1 →
        p.length ≤ p1.length) →
      extractDate content = some (String.mk e)) := by
  refine ⟨fun hno => ?_, fun p e q hc hshape hleft => ?_⟩
  · cases hm : firstMatch dateMatchAt content.data with
    | none => simp [extractDate, hm]
    | some m =>
      exfalso
      obtain ⟨p, q, hpq, hq⟩ := firstMatch_some _ _ _ hm
      obtain ⟨hshape, rest, hrest⟩ := dateMatchAt_some q m hq
      exact hno ⟨m, ⟨p, rest, by rw [hpq, ← hrest]; simp⟩, hshape⟩
  · have hfm : firstMatch dateMatchAt (p ++ (e ++ q)) = some e := by
      apply firstMatch_leftmost _ _ _ _ (dateMatchAt_exact e q hshape)
      intro p0 q0 hpq hq0
      cases hm : dateMatchAt (q0 ++ (e ++ q)) with
      | none => rfl
      | some m =>
        exfalso
        obtain ⟨hshape1, rest, hrest⟩ := dateMatchAt_some _ m hm
        have hle := hleft p0 m rest (by rw [hc, hpq, hrest]; simp) hshape1
        have hlen : p.length = p0.length + q0.length := by rw [hpq]; simp
        have hpos : 0 < q0.length := List.length_pos.mpr hq0
        omega
    unfold extractDate
    rw [hc, hfm]
    rfl

/-- The third scenario of the specification: a text whose first date-shaped
token is `2024-05-01`, with a month that no calendar has behind it. -/
theorem extractDate_spec_witness :
    extractDate "2024-05-01 until 99/99/2024" = some "2024-05-01" :=
  (extractDate_spec "2024-05-01 until 99/99/2024").2
    [] "2024-05-01".data " until 99/99/2024".data (by rfl)
    (Or.inl ⟨"2024".data, "05".data, "01".data, by rfl, by rfl, by rfl, by rfl,
      by decide, by decide, by decide⟩)
    (fun _ _ _ _ _ => Nat.zero_le _)

/-! ## The night-count extractor -/

/-- Up to `2 ^ 53` every integer is its own Number value. -/
theorem toNumber_of_le (n : Nat) (h : n ≤ 2 ^ 53) : toNumber n = .finite n := by
  rcases Nat.lt_or_ge n (2 ^ 53) with hlt | hge
  · unfold toNumber
    rw [if_pos hlt]
  · have : n = 2 ^ 53 := Nat.le_antisymm h hge
    subst this
    rfl

/-- A result of the search is the result of the attempt at a position before
which no attempt succeeds. -/
theorem firstMatch_some_min {α : Type} (f : List Char → Option α) (s : List Char) (r : α)
    (h : firstMatch f s = some r) :
    ∃ p q, s = p ++ q ∧ f q = some r ∧
      ∀ p0 q0, p = p0 ++ q0 → q0 ≠ [] → f (q0 ++ q) = none := by
  induction s with
  | nil =>
    refine ⟨[], [], rfl, by simpa [firstMatch] using h, ?_⟩
    intro p0 q0 hpq hq0
    exact absurd (List.append_eq_nil.mp hpq.symm).2 hq0
  | cons c cs ih =>
    cases hf : f (c :: cs) with
    | some r1 =>
      simp only [firstMatch, hf, Option.some.injEq] at h
      refine ⟨[], c :: cs, rfl, by rw [hf, h], ?_⟩
      intro p0 q0 hpq hq0
      exact absurd (List.append_eq_nil.mp hpq.symm).2 hq0
    | none =>
      simp only [firstMatch, hf] at h
      obtain ⟨p, q, hpq, hq, hmin⟩ := ih h
      refine ⟨c :: p, q, by simp [hpq], hq, ?_⟩
      intro p0 q0 hp0 hq0
      cases p0 with
      | nil =>
        simp only [List.nil_append] at hp0
        rw [← hp0, List.cons_append, ← hpq]
        exact hf
      | cons d p1 =>
        simp only [List.cons_append, List.cons.injEq] at hp0
        exact hmin p1 q0 hp0.2 hq0

/-- The Number `parseInt` reads off digits followed by a blank. -/
theorem parseInt_digits_blank (ds rest : List Char) (hd : ∀ c ∈ ds, isDigit c = true) :
    parseInt (ds ++ ' ' :: rest) = toNumber (digitsValue ds) := by
  unfold parseInt
  rw [(takeWhile_append_stop isDigit ds (' ' :: rest) hd
    (by intro c hc; simp only [List.head?_cons, Option.some.injEq] at hc; subst hc; decide)).1]

/-- Every result of one attempt of the nights pattern starts with a non-empty
digit run that `" night"` follows, and `parseInt` reads the Number value of
that run. -/
theorem nightsMatchAt_some (s m : List Char) (h : nightsMatchAt s = some m) :
    ∃ ds rest, s = ds ++ (" night".data ++ rest) ∧ ds ≠ [] ∧
      (∀ c ∈ ds, isDigit c = true) ∧ parseInt m = toNumber (digitsValue ds) := by
  unfold nightsMatchAt at h
  split_ifs at h with he
  have hds : ∀ c ∈ s.takeWhile isDigit, isDigit c = true := fun c hc => List.mem_takeWhile_imp hc
  have hsplit : s = s.takeWhile isDigit ++ s.dropWhile isDigit :=
    (List.takeWhile_append_dropWhile isDigit s).symm
  cases hstrip : stripLit " night".data (s.dropWhile isDigit) with
  | none => simp [hstrip] at h
  | some rest =>
    have hdrop := stripLit_some _ _ _ hstrip
    refine ⟨s.takeWhile isDigit, rest, by rw [← hdrop]; exact hsplit, by simpa using he, hds, ?_⟩
    simp only [hstrip] at h
    split at h <;> cases h <;> exact parseInt_digits_blank _ _ hds

/-- One attempt of the nights pattern succeeds on digits followed by
`" night"`, and `parseInt` of its result is the Number value of those digits. -/
theorem nightsMatchAt_exact (ds q : List Char) (hne : ds ≠ [])
    (hd : ∀ c ∈ ds, isDigit c = true) :
    ∃ m, nightsMatchAt (ds ++ (" night".data ++ q)) = some m ∧
      parseInt m = toNumber (digitsValue ds) := by
  have hstop := takeWhile_append_stop isDigit ds (" night".data ++ q) hd
    (by intro c hc
        have : c = ' ' := by
          have h0 : (" night".data ++ q).head? = some ' ' := rfl
          rw [h0] at hc
          exact (Option.some.inj hc).symm
        subst this; decide)
  have hne1 : ds.isEmpty = false := by
    cases ds with
    | nil => exact absurd rfl hne
    | cons _ _ => rfl
  unfold nightsMatchAt
  rw [hstop.1, hstop.2, stripLit_append]
  simp only [hne1, Bool.false_eq_true, if_false]
  split
  · exact ⟨_, rfl, parseInt_digits_blank _ _ hd⟩
  · exact ⟨_, rfl, parseInt_digits_blank _ _ hd⟩

/-- What `extractNights` returns on the leftmost occurrence of the pattern. -/
theorem extractNights_of_leftmost (content : String) (p ds q : List Char)
    (hocc : NightsOccurrence content.data p ds q)
    (hleft : ∀ p1 ds1 q1 : List Char, NightsOccurrence content.data p1 ds1 q1 →
      p.length ≤ p1.length) :
    extractNights content = some (toNumber (digitsValue ds)) := by
  obtain ⟨hc, hne, hd⟩ := hocc
  obtain ⟨m, hm, hval⟩ := nightsMatchAt_exact ds q hne hd
  have hfm : firstMatch nightsMatchAt (p ++ (ds ++ (" night".data ++ q))) = some m := by
    apply firstMatch_leftmost _ _ _ _ hm
    intro p0 q0 hpq hq0
    cases hm1 : nightsMatchAt (q0 ++ (ds ++ (" night".data ++ q))) with
    | none => rfl
    | some m1 =>
      exfalso
      obtain ⟨ds1, rest1, hs1, hne1, hd1, _⟩ := nightsMatchAt_some _ m1 hm1
      have hle := hleft p0 ds1 rest1 ⟨by rw [hc, hpq, ← hs1]; simp, hne1, hd1⟩
      have hlen : p.length = p0.length + q0.length := by rw [hpq]; simp
      have hpos : 0 < q0.length := List.length_pos.mpr hq0
      omega
  unfold extractNights
  rw [hc, hfm]
  simp [hval]

/-- Every value `extractNights` returns is the Number value of the digit run
of the leftmost occurrence of the pattern in the text. -/
theorem extractNights_some (c : String) (x : JsNumber) (h : extractNights c = some x) :
    ∃ p ds q, NightsOccurrence c.data p ds q ∧
      (∀ p1 ds1 q1 : List Char, NightsOccurrence c.data p1 ds1 q1 → p.length ≤ p1.length) ∧
      x = toNumber (digitsValue ds) := by
  unfold extractNights at h
  obtain ⟨m, hm, rfl⟩ := Option.map_eq_some'.mp h
  obtain ⟨p, q, hpq, hq, hmin⟩ := firstMatch_some_min _ _ _ hm
  obtain ⟨ds, rest, hs, hne, hd, hval⟩ := nightsMatchAt_some q m hq
  refine ⟨p, ds, rest, ⟨by rw [hpq, hs], hne, hd⟩, ?_, hval⟩
  intro p1 ds1 q1 hocc1
  obtain ⟨hc1, hne1, hd1⟩ := hocc1
  by_contra hlt
  have hlt1 : p1.length < p.length := Nat.lt_of_not_le hlt
  have hap : p ++ q = p1 ++ (ds1 ++ (" night".data ++ q1)) := by rw [← hpq, hc1]
  obtain ⟨q0, hp, hq0⟩ : ∃ q0, p = p1 ++ q0 ∧ ds1 ++ (" night".data ++ q1) = q0 ++ q := by
    rcases List.append_eq_append_iff.mp hap with ⟨a, h1, h2⟩ | ⟨a, h1, h2⟩
    · have : a = [] := by
        have := congrArg List.length h1
        simp only [List.length_append] at this
        exact List.length_eq_zero.mp (by omega)
      subst this
      exact ⟨[], by simpa using h1.symm, by simpa using h2.symm⟩
    · exact ⟨a, h1, h2⟩
  have hq0ne : q0 ≠ [] := by
    rintro rfl
    simp only [List.append_nil] at hp
    rw [hp] at hlt1
    exact Nat.lt_irrefl _ hlt1
  have hnone := hmin p1 q0 hp hq0ne
  obtain ⟨m1, hm1, _⟩ := nightsMatchAt_exact ds1 q1 hne1 hd1
  rw [← hq0, hm1] at hnone
  cases hnone

/-- C12, as stated, fails: the value returned is a double, so for the digit
run `9007199254740993` it is `9007199254740992`, not the integer the run
denotes; and the pattern knows no word boundary and wants one blank, so
`"7 nightmares ahead"` yields `7` and `"3nights"` yields `null`. -/
theorem extractNights_rounds_long_run :
    extractNights "9007199254740993 nights" = some 9007199254740992 ∧
    digitsValue "9007199254740993".data = 9007199254740993 ∧
    extractNights "7 nightmares ahead" = some 7 ∧
    extractNights "3nights" = none := by
  refine ⟨by rfl, by rfl, by rfl, by rfl⟩

/-- C12 (amended): `extractNights` returns `null` when the text has no run of
decimal digits followed by one blank and the letters `night`, and otherwise
returns the Number `parseInt` reads from the digit run of the leftmost such
occurrence: the integer that run denotes rounded to the nearest double, which
is the integer itself when it is at most `2 ^ 53`; that run is whole, no digit
stands before it. -/
theorem extractNights_leftmost (content : String) :
    ((¬ ∃ p ds q, NightsOccurrence content.data p ds q) → extractNights content = none) ∧
    (∀ p ds q : List Char, NightsOccurrence content.data p ds q →
      (∀ p1 ds1 q1 : List Char, NightsOccurrence content.data p1 ds1 q1 →
        p.length ≤ p1.length) →
      extractNights content = some (toNumber (digitsValue ds)) ∧
      (digitsValue ds ≤ 2 ^ 53 → extractNights content = some (.finite (digitsValue ds))) ∧
      ∀ c, p.getLast? = some c → isDigit c = false) := by
  refine ⟨fun hno => ?_, fun p ds q hocc hleft => ⟨?_, ?_, ?_⟩⟩
  · cases hm : extractNights content with
    | none => rfl
    | some x =>
      exfalso
      obtain ⟨p, ds, q, hocc, _, _⟩ := extractNights_some content x hm
      exact hno ⟨p, ds, q, hocc⟩
  · exact extractNights_of_leftmost content p ds q hocc hleft
  · intro hb
    rw [extractNights_of_leftmost content p ds q hocc hleft, toNumber_of_le _ hb]
  · intro c hlast
    obtain ⟨hc, hne, hd⟩ := hocc
    cases hdc : isDigit c with
    | false => rfl
    | true =>
      exfalso
      obtain ⟨p0, rfl⟩ := List.getLast?_eq_some_iff.mp hlast
      have hle := hleft p0 (c :: ds) q ⟨by rw [hc]; simp, by simp, by
        intro a ha
        rcases List.mem_cons.mp ha with rfl | ha
        · exact hdc
        · exact hd a ha⟩
      simp at hle

/-- The fourth scenario of the specification: a text containing `3 nights`. -/
theorem extractNights_leftmost_witness :
    extractNights "3 nights, please" = some (JsNumber.finite 3) :=
  ((extractNights_leftmost "3 nights, please").2
    [] "3".data "s, please".data ⟨by rfl, by decide, by decide⟩
    (fun _ _ _ _ => Nat.zero_le _)).2.1 (by decide)

/-! ## The stored night count -/

theorem ReachableBy.reachable {P : Type} (history : List Message) (s : BookingState)
    (h : ReachableBy P history s) : Reachable P s := by
  induction h with
  | zeroed => exact Reachable.zeroed
  | turn w aiResponse reply history s s1 _ hstep ih =>
    exact Reachable.turn w aiResponse reply s s1 ih hstep

theorem Reachable.history {P : Type} (s : BookingState) (h : Reachable P s) :
    ∃ history, ReachableBy P history s := by
  induction h with
  | zeroed => exact ⟨[], ReachableBy.zeroed⟩
  | turn w aiResponse reply s s1 _ hstep ih =>
    obtain ⟨history, hh⟩ := ih
    exact ⟨aiResponse :: history, ReachableBy.turn w aiResponse reply history s s1 hh hstep⟩

/-- A completed turn leaves in `nights` what was there, `null`, or what
`extractNights` returns on the content of a plain-text reply. -/
theorem handleReply_nights {P : Type} (w : Services P) (s s1 : BookingState)
    (aiResponse reply : Message) (h : handleReply w s aiResponse = .ok (s1, reply)) :
    s1.nights = s.nights ∨ s1.nights = none ∨
      ∃ c, aiResponse.function_call = none ∧ aiResponse.content = some c ∧
        s1.nights = extractNights c := by
  unfold handleReply at h
  split at h
  · split at h
    · cases h
    · split_ifs at h
      · split at h
        · cases h
        · cases h; exact Or.inl rfl
      · split at h
        · cases h
        · cases h; exact Or.inr (Or.inl rfl)
      · cases h; exact Or.inl rfl
  · rename_i hfc
    split at h
    · rename_i c hc
      split at h
      · cases h
      · rename_i s2 hs2
        cases h
        obtain ⟨v, _, rfl⟩ := updateBookingState_ok_inv s s2 c hs2
        rw [(updateBookingStage_fields _).2.2.2.1]
        by_cases ht : truthyNum s.nights = true
        · exact Or.inl (by simp [ht])
        · exact Or.inr (Or.inr ⟨c, hfc, hc, by simp [ht]⟩)
    · split_ifs at h
      cases h
      exact Or.inl (updateBookingStage_fields _).2.2.2.1

/-- C13, as stated, fails: the reply `"0 nights"` from the zeroed state leads
to a state whose night count is `0`, which is neither `null` nor positive. -/
theorem reachable_zero_nights :
    Reachable String zeroNightsState ∧ zeroNightsState.nights = some 0 ∧
    extractNights "0 nights" = some 0 :=
  ⟨Reachable.turn (plainServices "0 nights")
      { role := "assistant", content := some "0 nights", function_call := none }
      { role := "assistant", content := some "0 nights", function_call := none }
      zeroedState _ Reachable.zeroed (by rfl), rfl, by rfl⟩

/-- C13 (amended): in every booking state reached from the zeroed state by a
sequence of completed turns, `nights` is either `null` or the Number that
`parseInt` read from the digit run of the leftmost ` night` occurrence in the
content of a plain-text reply the model gave in one of those turns: a
non-negative integer, which can be zero, or `Infinity` for a run whose value
rounds to `2 ^ 1024` or lies above it. -/
theorem reachable_nights_origin (P : Type) (history : List Message) (s : BookingState)
    (h : ReachableBy P history s) :
    s.nights = none ∨
    ∃ (aiResponse : Message) (c : String) (p ds q : List Char),
      aiResponse ∈ history ∧ aiResponse.function_call = none ∧
      aiResponse.content = some c ∧ NightsOccurrence c.data p ds q ∧
      (∀ p1 ds1 q1 : List Char, NightsOccurrence c.data p1 ds1 q1 → p.length ≤ p1.length) ∧
      s.nights = some (toNumber (digitsValue ds)) := by
  induction h with
  | zeroed => exact Or.inl rfl
  | turn w aiResponse reply history s s1 _ hstep ih =>
    rcases handleReply_nights w s s1 aiResponse reply hstep with h1 | h1 | ⟨c, hfc, hc, h1⟩
    · rcases ih with h0 | ⟨ai, c, p, ds, q, hmem, hfc, hc, hocc, hleft, hval⟩
      · exact Or.inl (by rw [h1, h0])
      · exact Or.inr ⟨ai, c, p, ds, q, List.mem_cons_of_mem _ hmem, hfc, hc, hocc, hleft,
          by rw [h1, hval]⟩
    · exact Or.inl h1
    · cases hx : extractNights c with
      | none => exact Or.inl (by rw [h1, hx])
      | some x =>
        obtain ⟨p, ds, q, hocc, hleft, hn⟩ := extractNights_some c x hx
        exact Or.inr ⟨aiResponse, c, p, ds, q, List.mem_cons_self _ _, hfc, hc, hocc, hleft,
          by rw [h1, hx, hn]⟩

/-- The night count after the reply `"I will stay 12 nights"`. -/
theorem reachable_nights_origin_witness :
    (some 12 : Option JsNumber) = none ∨
    ∃ (aiResponse : Message) (c : String) (p ds q : List Char),
      aiResponse ∈
        [({ role := "assistant", content := some "I will stay 12 nights",
            function_call := none } : Message)] ∧
      aiResponse.function_call = none ∧
      aiResponse.content = some c ∧ NightsOccurrence c.data p ds q ∧
      (∀ p1 ds1 q1 : List Char, NightsOccurrence c.data p1 ds1 q1 → p.length ≤ p1.length) ∧
      (some 12 : Option JsNumber) = some (toNumber (digitsValue ds)) :=
  reachable_nights_origin String
    [{ role := "assistant", content := some "I will stay 12 nights", function_call := none }]
    { stage := .collecting_info, fullName := none, email := none, checkInDate := none,
      nights := some 12, selectedRoomId := none }
    (ReachableBy.turn (plainServices "I will stay 12 nights")
      { role := "assistant", content := some "I will stay 12 nights", function_call := none }
      { role := "assistant", content := some "I will stay 12 nights", function_call := none }
      [] zeroedState _ ReachableBy.zeroed (by rfl))

/-! ## Extraction twice -/

/-- C14: on every state and text on which `updateBookingState` completes,
running it again with the same text completes and changes nothing. -/
theorem updateBookingState_idem (s s1 : BookingState) (c : String)
    (h : updateBookingState s c = .ok s1) : updateBookingState s1 c = .ok s1 := by
  obtain ⟨v, hv, rfl⟩ := updateBookingState_ok_inv s s1 c h
  have hv1 : (if truthyStr v = true then v = v else extractFullName c = .ok v) := by
    by_cases hvt : truthyStr v = true
    · simp [hvt]
    · simp only [hvt, if_false]
      by_cases hst : truthyStr s.fullName = true
      · rw [if_pos hst] at hv
        rw [hv] at hvt
        exact absurd hst hvt
      · rw [if_neg hst] at hv
        exact hv
  rw [updateBookingState_eq _ c v hv1]
  congr 2
  · by_cases h2 : truthyStr s.email = true
    · simp [h2]
    · by_cases h2e : truthyStr (extractEmail c) = true <;> simp [h2, h2e]
  · by_cases h3 : truthyStr s.checkInDate = true
    · simp [h3]
    · by_cases h3e : truthyStr (extractDate c) = true <;> simp [h3, h3e]
  · by_cases h4 : truthyNum s.nights = true
    · simp [h4]
    · by_cases h4e : truthyNum (extractNights c) = true <;> simp [h4, h4e]
  · by_cases h5 : truthyNum s.selectedRoomId = true
    · simp [h5]
    · by_cases h5e : truthyNum (extractRoomId c) = true <;> simp [h5, h5e]

/-- The reply `"My name is Jane Doe, 3 nights"` applied twice to the zeroed state. -/
theorem updateBookingState_idem_witness :
    updateBookingState
        { stage := .initial, fullName := some "Jane Doe, 3 nights", email := none,
          checkInDate := none, nights := some 3, selectedRoomId := none }
        "My name is Jane Doe, 3 nights" =
      .ok { stage := .initial, fullName := some "Jane Doe, 3 nights", email := none,
            checkInDate := none, nights := some 3, selectedRoomId := none } :=
  updateBookingState_idem zeroedState _ "My name is Jane Doe, 3 nights" (by rfl)

/-! ## The stage and the room, the stage and time -/

/-- C18: two booking states that agree on `fullName`, `email`, `checkInDate`
and `nights` get the same stage from `updateBookingStage`, whatever their
`selectedRoomId` (and their earlier stage) are. -/
theorem updateBookingStage_ignores_room (s t : BookingState)
    (h1 : s.fullName = t.fullName) (h2 : s.email = t.email)
    (h3 : s.checkInDate = t.checkInDate) (h4 : s.nights = t.nights) :
    (updateBookingStage s).stage = (updateBookingStage t).stage := by
  unfold updateBookingStage
  rw [h1, h2, h3, h4]
  split_ifs <;> rfl

/-- Two states that differ in the selected room and in the earlier stage only. -/
theorem updateBookingStage_ignores_room_witness :
    (updateBookingStage
      { stage := .initial, fullName := some "Jane Doe", email := none, checkInDate := none,
        nights := some 3, selectedRoomId := some 2 }).stage =
    (updateBookingStage
      { stage := .ready_to_book, fullName := some "Jane Doe", email := none,
        checkInDate := none, nights := some 3, selectedRoomId := none }).stage :=
  updateBookingStage_ignores_room _ _ rfl rfl rfl rfl

/-- The rank of the stage `updateBookingStage` sets grows with the truthiness
of the four fields. -/
theorem updateBookingStage_rank_mono (s t : BookingState)
    (h1 : truthyStr s.fullName = true → truthyStr t.fullName = true)
    (h2 : truthyStr s.email = true → truthyStr t.email = true)
    (h3 : truthyStr s.checkInDate = true → truthyStr t.checkInDate = true)
    (h4 : truthyNum s.nights = true → truthyNum t.nights = true) :
    (updateBookingStage s).stage.rank ≤ (updateBookingStage t).stage.rank := by
  unfold updateBookingStage
  by_cases a1 : truthyStr s.fullName = true <;> by_cases a2 : truthyStr s.email = true <;>
    by_cases a3 : truthyStr s.checkInDate = true <;> by_cases a4 : truthyNum s.nights = true <;>
    by_cases b1 : truthyStr t.fullName = true <;> by_cases b2 : truthyStr t.email = true <;>
    by_cases b3 : truthyStr t.checkInDate = true <;> by_cases b4 : truthyNum t.nights = true <;>
    simp_all [Stage.rank]

/-- C19: from a booking state whose stage agrees with the rule of
`updateBookingStage`, a plain-text turn on which extraction completes
(`updateBookingState`, then `updateBookingStage`) never moves the stage
backwards in the order initial, collecting_info, ready_to_book. -/
theorem plain_turn_stage_monotone (s s1 : BookingState) (c : String)
    (hs : updateBookingStage s = s) (h : updateBookingState s c = .ok s1) :
    s.stage.rank ≤ (updateBookingStage s1).stage.rank := by
  obtain ⟨v, hv, rfl⟩ := updateBookingState_ok_inv s s1 c h
  have hmono := updateBookingStage_rank_mono s
    { stage := s.stage, fullName := v,
      email := if truthyStr s.email = true then s.email else extractEmail c,
      checkInDate := if truthyStr s.checkInDate = true then s.checkInDate else extractDate c,
      nights := if truthyNum s.nights = true then s.nights else extractNights c,
      selectedRoomId :=
        if truthyNum s.selectedRoomId = true then s.selectedRoomId else extractRoomId c }
    (fun a => by rw [if_pos a] at hv; rw [hv]; exact a)
    (fun a => by simp [a]) (fun a => by simp [a]) (fun a => by simp [a])
  rw [hs] at hmono
  exact hmono

/-- A state that is collecting information stays at least there after a reply
that brings nothing new. -/
theorem plain_turn_stage_monotone_witness :
    Stage.rank Stage.collecting_info ≤
      (updateBookingStage
        { stage := .collecting_info, fullName := some "Jane Doe", email := none,
          checkInDate := none, nights := none, selectedRoomId := none }).stage.rank :=
  plain_turn_stage_monotone
    { stage := .collecting_info, fullName := some "Jane Doe", email := none,
      checkInDate := none, nights := none, selectedRoomId := none } _
    "How many nights will you stay?" (by rfl) (by rfl)

/-! ## The transcript -/

/-- The store a successful turn leaves: the store after find-or-create, with
the row of the user as `save` writes it. -/
theorem chat_success_store {P : Type} (w : Services P) (store : Store)
    (userId message : String) (content : Option String)
    (hok : (chat w store userId message).2 = .reply content) :
    ∃ (store1 : Store) (conversation : Conversation) (aiResponse : Message),
      findOrCreate w store userId = .ok (store1, conversation) ∧
      w.complete
        ({ role := "system", content := some (generateSystemMessage conversation.bookingState),
           function_call := none } ::
          (conversation.messages ++
            [{ role := "user", content := some message, function_call := none }])) =
        .ok aiResponse ∧
      (chat w store userId message).1 =
        store1.save conversation.userId (assignedBookingState aiResponse) := by
  have herr : ∀ (e : Thrown P) (c : Option String), errorResponse e ≠ .reply c := by
    intro e c he
    unfold errorResponse at he
    split at he
    · cases he
    · split_ifs at he
  cases hf : findOrCreate w store userId with
  | error e =>
    unfold chat at hok
    simp only [hf] at hok
    exact absurd hok (herr e content)
  | ok r =>
    obtain ⟨store1, conversation⟩ := r
    cases hc : w.complete
        ({ role := "system", content := some (generateSystemMessage conversation.bookingState),
           function_call := none } ::
          (conversation.messages ++
            [{ role := "user", content := some message, function_call := none }])) with
    | error e =>
      unfold chat at hok
      simp only [hf, hc] at hok
      exact absurd hok (herr _ content)
    | ok aiResponse =>
      cases hr : handleReply w conversation.bookingState aiResponse with
      | error e =>
        unfold chat at hok
        simp only [hf, hc, hr] at hok
        exact absurd hok (herr e content)
      | ok r2 =>
        obtain ⟨bookingState1, reply⟩ := r2
        cases hs : w.saveError with
        | some e =>
          unfold chat at hok
          simp only [hf, hc, hr, hs] at hok
          exact absurd hok (herr e content)
        | none =>
          refine ⟨store1, conversation, aiResponse, rfl, hc, ?_⟩
          unfold chat
          simp only [hf, hc, hr, hs]

/-- Saving leaves the transcript of the row of a user as it is. -/
theorem Store.findOne_save_messages (store : Store) (userId : String) (c : Conversation)
    (assigned : Option BookingState) (h : store.findOne userId = some c) :
    ∃ c1, (store.save userId assigned).findOne userId = some c1 ∧ c1.messages = c.messages := by
  refine ⟨_, Store.findOne_save store userId c assigned h, ?_⟩
  cases assigned <;> rfl

/-- C15: the claim does not hold of the code.  The user record and the reply
record are pushed into the JSON attribute `messages` in place, which
`conversation.save()` does not see, so the saved transcript is the stored one,
not the stored one followed by the two records.  On the store with the row of
`u1` holding `Hi`, `Hello!`, the turn with message `Who am I?` and reply
`My name is Jane Doe` answers with the reply and leaves the store as it was;
and after every successful turn the row of the user holds the transcript it
held before (the empty one for a row just created). -/
theorem chat_keeps_stored_transcript :
    chat sampleServices talkingStore "u1" "Who am I?" =
      (talkingStore, .reply (some "My name is Jane Doe")) ∧
    (∀ (P : Type) (w : Services P) (store : Store) (userId message : String)
        (content : Option String) (c : Conversation),
      store.findOne userId = some c → (chat w store userId message).2 = .reply content →
      ∃ c1, (chat w store userId message).1.findOne userId = some c1 ∧
        c1.messages = c.messages) ∧
    (∀ (P : Type) (w : Services P) (store : Store) (userId message : String)
        (content : Option String),
      store.findOne userId = none → (chat w store userId message).2 = .reply content →
      ∃ c1, (chat w store userId message).1.findOne userId = some c1 ∧ c1.messages = []) := by
  refine ⟨by rfl, ?_, ?_⟩
  · intro P w store userId message content c hc hok
    obtain ⟨store1, conversation, aiResponse, hf, _, hst⟩ :=
      chat_success_store w store userId message content hok
    obtain ⟨hf1, hu, hcase⟩ := findOrCreate_ok w store store1 userId conversation hf
    rw [hst, hu]
    rcases hcase with ⟨h1, _⟩ | ⟨h1, _, _⟩
    · rw [hc] at h1
      cases h1
      exact Store.findOne_save_messages store1 userId c _ hf1
    · rw [hc] at h1
      cases h1
  · intro P w store userId message content hc hok
    obtain ⟨store1, conversation, aiResponse, hf, _, hst⟩ :=
      chat_success_store w store userId message content hok
    obtain ⟨hf1, hu, hcase⟩ := findOrCreate_ok w store store1 userId conversation hf
    rw [hst, hu]
    rcases hcase with ⟨h1, _⟩ | ⟨_, h2, _⟩
    · rw [hc] at h1
      cases h1
    · obtain ⟨c1, hc1, hm⟩ := Store.findOne_save_messages store1 userId conversation
        (assignedBookingState aiResponse) hf1
      exact ⟨c1, hc1, by rw [hm, h2]⟩

/-! ## Input validation -/

theorem JsValue.truthy_eq_false_iff (v : JsValue) :
    v.truthy = false ↔
      (v = .undefined ∨ v = .null ∨ v = .bool false ∨ v = .number 0 ∨ v = .string "") := by
  cases v with
  | undefined => simp [JsValue.truthy]
  | null => simp [JsValue.truthy]
  | bool b => cases b <;> simp [JsValue.truthy]
  | number n => simp [JsValue.truthy]
  | string s =>
    obtain ⟨l⟩ := s
    cases l <;> simp [JsValue.truthy, String.ext_iff]
  | object => simp [JsValue.truthy]

/-- C16, as stated, fails: a body whose `message` is the number `0` has both
members present and neither is an empty string, yet the route answers 400
`Missing required fields` and the handler is not run. -/
theorem postChat_rejects_zero_message :
    postChat (fun _ st => chat sampleServices st "u1" "hello") []
        { message := .number 0, userId := .string "u1" } =
      ([], .errorText 400 "Missing required fields") ∧
    ¬ MissingOrEmpty (.number 0) ∧ ¬ MissingOrEmpty (.string "u1") := by
  refine ⟨by rfl, by unfold MissingOrEmpty; decide, by unfold MissingOrEmpty; decide⟩

/-- C16 (amended): for every request body, `validateChatInput` answers 400
`Missing required fields` exactly when `message` or `userId` is falsy (missing,
`null`, `false`, `0` or the empty string); in that case the handler is not run
and the store is what it was, whatever the handler is; otherwise the answer
and the store are the handler's. -/
theorem postChat_validation {P : Type} (handler : RequestBody → Store → Store × HttpResponse P)
    (store : Store) (body : RequestBody) :
    ((body.message = .undefined ∨ body.message = .null ∨ body.message = .bool false ∨
        body.message = .number 0 ∨ body.message = .string "" ∨
      body.userId = .undefined ∨ body.userId = .null ∨ body.userId = .bool false ∨
        body.userId = .number 0 ∨ body.userId = .string "") →
      postChat handler store body = (store, .errorText 400 "Missing required fields")) ∧
    (¬ (body.message = .undefined ∨ body.message = .null ∨ body.message = .bool false ∨
        body.message = .number 0 ∨ body.message = .string "" ∨
      body.userId = .undefined ∨ body.userId = .null ∨ body.userId = .bool false ∨
        body.userId = .number 0 ∨ body.userId = .string "") →
      postChat handler store body = handler body store) := by
  have hm := JsValue.truthy_eq_false_iff body.message
  have hu := JsValue.truthy_eq_false_iff body.userId
  constructor
  · intro h
    have : body.message.truthy = false ∨ body.userId.truthy = false := by
      rcases h with h | h | h | h | h | h | h | h | h | h
      · exact Or.inl (hm.mpr (Or.inl h))
      · exact Or.inl (hm.mpr (Or.inr (Or.inl h)))
      · exact Or.inl (hm.mpr (Or.inr (Or.inr (Or.inl h))))
      · exact Or.inl (hm.mpr (Or.inr (Or.inr (Or.inr (Or.inl h)))))
      · exact Or.inl (hm.mpr (Or.inr (Or.inr (Or.inr (Or.inr h)))))
      · exact Or.inr (hu.mpr (Or.inl h))
      · exact Or.inr (hu.mpr (Or.inr (Or.inl h)))
      · exact Or.inr (hu.mpr (Or.inr (Or.inr (Or.inl h))))
      · exact Or.inr (hu.mpr (Or.inr (Or.inr (Or.inr (Or.inl h)))))
      · exact Or.inr (hu.mpr (Or.inr (Or.inr (Or.inr (Or.inr h)))))
    unfold postChat validateChatInput
    rcases this with h1 | h1 <;> simp [h1]
  · intro h
    have h1 : body.message.truthy = true := by
      cases ht : body.message.truthy with
      | true => rfl
      | false =>
        exfalso
        apply h
        rcases hm.mp ht with a | a | a | a | a
        · exact Or.inl a
        · exact Or.inr (Or.inl a)
        · exact Or.inr (Or.inr (Or.inl a))
        · exact Or.inr (Or.inr (Or.inr (Or.inl a)))
        · exact Or.inr (Or.inr (Or.inr (Or.inr (Or.inl a))))
    have h2 : body.userId.truthy = true := by
      cases ht : body.userId.truthy with
      | true => rfl
      | false =>
        exfalso
        apply h
        rcases hu.mp ht with a | a | a | a | a
        · exact Or.inr (Or.inr (Or.inr (Or.inr (Or.inr (Or.inl a)))))
        · exact Or.inr (Or.inr (Or.inr (Or.inr (Or.inr (Or.inr (Or.inl a))))))
        · exact Or.inr (Or.inr (Or.inr (Or.inr (Or.inr (Or.inr (Or.inr (Or.inl a)))))))
        · exact Or.inr (Or.inr (Or.inr (Or.inr (Or.inr (Or.inr (Or.inr (Or.inr (Or.inl a))))))))
        · exact Or.inr (Or.inr (Or.inr (Or.inr (Or.inr (Or.inr (Or.inr (Or.inr (Or.inr a))))))))
    unfold postChat validateChatInput
    simp [h1, h2]

/-- A body without `userId` is refused and the store stays as it is; a body
with both members goes to the handler. -/
theorem postChat_validation_witness :
    postChat (fun _ st => chat sampleServices st "u1" "hello") readyStore
        { message := .string "hello", userId := .undefined } =
      (readyStore, .errorText 400 "Missing required fields") ∧
    postChat (fun _ st => chat sampleServices st "u1" "hello") readyStore
        { message := .string "hello", userId := .string "u1" } =
      chat sampleServices readyStore "u1" "hello" :=
  ⟨(postChat_validation (fun _ st => chat sampleServices st "u1" "hello") readyStore
      { message := .string "hello", userId := .undefined }).1
      (Or.inr (Or.inr (Or.inr (Or.inr (Or.inr (Or.inl rfl)))))),
   (postChat_validation (fun _ st => chat sampleServices st "u1" "hello") readyStore
      { message := .string "hello", userId := .string "u1" }).2 (by decide)⟩

/-! ## The failure sent to the caller -/

/-- The decision of the `catch` block on an error thrown by `axios`: status
and payload of the downstream response, 503 when no response came, 500
otherwise. -/
theorem errorResponse_axiosError {P : Type} (o : Outcome P) :
    errorResponse (axiosError o) =
      (match o with
       | .answered status data => .errorData status data
       | .unreachable => .errorText 503 "Service unavailable"
       | .broken => .errorText 500 "Internal server error") := by
  cases o <;> rfl

/-- The decision of the `catch` block on an error thrown by the client of the
completion provider: always 500. -/
theorem errorResponse_openaiError {P : Type} (o : Outcome P) :
    errorResponse (openaiError o) = .errorText 500 "Internal server error" := by
  cases o <;> rfl

/-- C17: the claim does not hold of the code for the completion provider.
The `catch` block reads `error.response` and `error.request`, which the errors
of `axios` carry and the errors of the provider's client do not: when the
provider cannot be reached the caller receives 500 `Internal server error`,
not 503, and when the provider answers with an error status the caller
receives 500 as well, not that status and payload.  For the rooms and booking
services the decision is the one the claim states. -/
theorem chat_provider_failure_answers_500 :
    (chat unreachableProvider readyStore "u1" "hello").2 =
      .errorText 500 "Internal server error" ∧
    (∀ (P : Type) (w : Services P) (store store1 : Store) (userId message : String)
        (conversation : Conversation) (o : Outcome P),
      findOrCreate w store userId = .ok (store1, conversation) →
      w.complete
        ({ role := "system", content := some (generateSystemMessage conversation.bookingState),
           function_call := none } ::
          (conversation.messages ++
            [{ role := "user", content := some message, function_call := none }])) =
        .error o →
      (chat w store userId message).2 = .errorText 500 "Internal server error") ∧
    (chat refusingServices readyStore "u1" "book it").2 = .errorData 422 "no such room" ∧
    (∀ (P : Type) (o : Outcome P),
      errorResponse (axiosError o) =
        (match o with
         | .answered status data => .errorData status data
         | .unreachable => .errorText 503 "Service unavailable"
         | .broken => .errorText 500 "Internal server error")) := by
  refine ⟨by rfl, ?_, by rfl, fun P o => errorResponse_axiosError o⟩
  intro P w store store1 userId message conversation o hf hc
  unfold chat
  simp only [hf, hc]
  exact errorResponse_openaiError o

/-! ## The user's message and the booking state -/

/-- The plain-text branch does not consult the services. -/
theorem handleReply_plain {P : Type} (w1 w2 : Services P) (s : BookingState) (aiResponse : Message)
    (h : aiResponse.function_call = none) :
    handleReply w1 s aiResponse = handleReply w2 s aiResponse := by
  unfold handleReply
  simp only [h]

/-- The store and the response a turn ends with, given the record it works on
and the reply of the model. -/
theorem chat_result {P : Type} (w : Services P) (store store1 : Store) (userId message : String)
    (conversation : Conversation) (aiResponse : Message)
    (hf : findOrCreate w store userId = .ok (store1, conversation))
    (hc : w.complete
        ({ role := "system", content := some (generateSystemMessage conversation.bookingState),
           function_call := none } ::
          (conversation.messages ++
            [{ role := "user", content := some message, function_call := none }])) =
        .ok aiResponse)
    (hs : w.saveError = none) :
    (chat w store userId message).1 =
      (match handleReply w conversation.bookingState aiResponse with
       | .ok _ => store1.save conversation.userId (assignedBookingState aiResponse)
       | .error _ => store1) ∧
    (chat w store userId message).2 =
      (match handleReply w conversation.bookingState aiResponse with
       | .ok (_, r) => .reply r.content
       | .error e => errorResponse e) := by
  unfold chat
  simp only [hf, hc]
  cases hr : handleReply w conversation.bookingState aiResponse with
  | error e => exact ⟨rfl, rfl⟩
  | ok r =>
    obtain ⟨b, r2⟩ := r
    simp only [hs]
    exact ⟨trivial, trivial⟩

/-- After a turn with a plain-text reply the row of the user holds the booking
state it held at the start of the turn. -/
theorem chat_plain_state {P : Type} (w : Services P) (store store1 : Store)
    (userId message : String) (conversation : Conversation) (aiResponse : Message)
    (hf : findOrCreate w store userId = .ok (store1, conversation))
    (hc : w.complete
        ({ role := "system", content := some (generateSystemMessage conversation.bookingState),
           function_call := none } ::
          (conversation.messages ++
            [{ role := "user", content := some message, function_call := none }])) =
        .ok aiResponse)
    (hplain : aiResponse.function_call = none) (hs : w.saveError = none) :
    ((chat w store userId message).1.findOne userId).map (fun c => c.bookingState) =
      some conversation.bookingState := by
  obtain ⟨hf1, _, _⟩ := findOrCreate_ok w store store1 userId conversation hf
  have hnone : assignedBookingState aiResponse = none := by
    unfold assignedBookingState
    simp [hplain]
  rw [(chat_result w store store1 userId message conversation aiResponse hf hc hs).1]
  cases hr : handleReply w conversation.bookingState aiResponse with
  | error e => simp [hf1]
  | ok r => simp [hnone, Store.save_none, hf1]

/-- C20: in a plain-text turn the resulting booking state depends on the
prior booking state and on the model's reply only.  Two turns that work on
records with the same booking state and receive the same plain-text reply end
with the same booking state for their user and with the same response,
whatever the two inbound messages, users, stores and services are; and the
branch on the reply, which computes the booking state of the turn, gives the
same result in both. -/
theorem plain_turn_ignores_user_message {P : Type} (w1 w2 : Services P)
    (store1 store2 st1 st2 : Store) (userId1 userId2 message1 message2 : String)
    (conv1 conv2 : Conversation) (aiResponse : Message)
    (hf1 : findOrCreate w1 store1 userId1 = .ok (st1, conv1))
    (hf2 : findOrCreate w2 store2 userId2 = .ok (st2, conv2))
    (hstate : conv1.bookingState = conv2.bookingState)
    (hc1 : w1.complete
        ({ role := "system", content := some (generateSystemMessage conv1.bookingState),
           function_call := none } ::
          (conv1.messages ++
            [{ role := "user", content := some message1, function_call := none }])) =
        .ok aiResponse)
    (hc2 : w2.complete
        ({ role := "system", content := some (generateSystemMessage conv2.bookingState),
           function_call := none } ::
          (conv2.messages ++
            [{ role := "user", content := some message2, function_call := none }])) =
        .ok aiResponse)
    (hplain : aiResponse.function_call = none)
    (hs1 : w1.saveError = none) (hs2 : w2.saveError = none) :
    ((chat w1 store1 userId1 message1).1.findOne userId1).map (fun c => c.bookingState) =
      ((chat w2 store2 userId2 message2).1.findOne userId2).map (fun c => c.bookingState) ∧
    (chat w1 store1 userId1 message1).2 = (chat w2 store2 userId2 message2).2 ∧
    handleReply w1 conv1.bookingState aiResponse =
      handleReply w2 conv2.bookingState aiResponse := by
  have hreply : handleReply w1 conv1.bookingState aiResponse =
      handleReply w2 conv2.bookingState aiResponse := by
    rw [handleReply_plain w1 w2 _ aiResponse hplain, hstate]
  refine ⟨?_, ?_, hreply⟩
  · rw [chat_plain_state w1 store1 st1 userId1 message1 conv1 aiResponse hf1 hc1 hplain hs1,
      chat_plain_state w2 store2 st2 userId2 message2 conv2 aiResponse hf2 hc2 hplain hs2, hstate]
  · rw [(chat_result w1 store1 st1 userId1 message1 conv1 aiResponse hf1 hc1 hs1).2,
      (chat_result w2 store2 st2 userId2 message2 conv2 aiResponse hf2 hc2 hs2).2, hreply]

/-- Two first turns with different messages and the same reply. -/
theorem plain_turn_ignores_user_message_witness :
    ((chat sampleServices [] "u1" "Hello there").1.findOne "u1").map (fun c => c.bookingState) =
      ((chat sampleServices [] "u1" "My name is Bob, 4 nights").1.findOne "u1").map
        (fun c => c.bookingState) ∧
    (chat sampleServices [] "u1" "Hello there").2 =
      (chat sampleServices [] "u1" "My name is Bob, 4 nights").2 ∧
    handleReply sampleServices zeroedState
        { role := "assistant", content := some "My name is Jane Doe", function_call := none } =
      handleReply sampleServices zeroedState
        { role := "assistant", content := some "My name is Jane Doe", function_call := none } :=
  plain_turn_ignores_user_message sampleServices sampleServices [] []
    [{ userId := "u1", messages := [], bookingState := zeroedState }]
    [{ userId := "u1", messages := [], bookingState := zeroedState }]
    "u1" "u1" "Hello there" "My name is Bob, 4 nights"
    { userId := "u1", messages := [], bookingState := zeroedState }
    { userId := "u1", messages := [], bookingState := zeroedState }
    { role := "assistant", content := some "My name is Jane Doe", function_call := none }
    (by rfl) (by rfl) rfl (by rfl) (by rfl) rfl rfl rfl

end HotelBot
